import Mathlib

/-!
Quickboot: boot / init / shutdown processes.

A shallow embedding of the three programs of the repository

* `src/shutdown.c` (Shutdown Controller),
* `src/usbboot.c`  (Bootstrap),
* `src/start.c`    (Init Supervisor),

as deterministic machines that issue system and library calls and continue
according to the answers they receive.  The operating system is an explicit
parameter: every theorem quantifies over its answers.
-/

namespace Quickboot

/-! ## Calls and answers -/

/-- Answer of the system to one call: the value the call returns, the value
of `errno` after the call, and whether the call returns at all.  The field
`returns` is consulted only for `execve` and `reboot`, the two calls that do
not come back when they succeed; every other call is taken to return. -/
structure Resp where
  ret : Int
  errno : Int
  returns : Bool
deriving DecidableEq, Repr

/-- System and library calls issued by the three programs, with their
arguments.  Flag words, signal numbers and commands are kept by the names
the sources use for them. -/
inductive Call where
  | puts (s : String)
  | fprintfStderr (text : String)
  | kill (pid : Int) (sig : String)
  | sleep (seconds : Nat)
  | nanosleep (sec nsec : Nat)
  | mount (source target : String) (fstype : Option String) (flags : List String)
  | sync
  | reboot (cmd : String)
  | unlink (path : String)
  | chdir (path : String)
  | chroot (path : String)
  | openFile (path : String) (flags : List String)
  | tcgetattr (fd : Int)
  | cfsetospeed (speed : String)
  | tcsetattr (fd : Int) (action : String)
  | write (fd : Int) (bytes : String)
  | close (fd : Int)
  | execve (path : String) (argv : List String) (envp : List String)
  | sigaction (sig : String) (handler : String)
  | setsid
  | dup (fd : Int)
  | fork
deriving DecidableEq, Repr

/-- One entry of a trace: a call together with the answer it received. -/
abbrev Event := Call × Resp

/-- Calls of a trace, in the order in which they were issued. -/
def calls (tr : List Event) : List Call := tr.map Prod.fst

/-- Number of times the call `c` has been issued in the trace `tr`. -/
def occ (c : Call) (tr : List Event) : Nat := (calls tr).count c

/-! ## Machines, kernels and runs -/

/-- A sequential process: at control point `pc` (with the current `errno`)
it either has a call to issue or is over; the answer determines the next
control point and the next `errno`. -/
structure Machine (PC : Type) where
  pending : PC → Int → Option Call
  next : PC → Resp → PC
  errnoAfter : PC → Resp → Int

/-- The system a process runs on: it answers a call from its own state and
the interaction so far. -/
structure Kernel (K : Type) where
  respond : K → List Event → Call → Resp × K

/-- A process together with the system state and the trace so far. -/
structure Config (PC K : Type) where
  pc : PC
  errno : Int
  world : K
  trace : List Event

/-- One call: issue the pending call, record it with its answer and move on.
A process that is over stays as it is. -/
def step {PC K : Type} (m : Machine PC) (k : Kernel K) (c : Config PC K) : Config PC K :=
  match m.pending c.pc c.errno with
  | none => c
  | some call =>
    let a := k.respond c.world c.trace call
    { pc := m.next c.pc a.1,
      errno := m.errnoAfter c.pc a.1,
      world := a.2,
      trace := c.trace ++ [(call, a.1)] }

/-- The configuration after `n` calls. -/
def run {PC K : Type} (m : Machine PC) (k : Kernel K) : Nat → Config PC K → Config PC K
  | 0, c => c
  | n + 1, c => run m k n (step m k c)

/-- A system without state of its own: the answer to the `i`-th issue
(counted from 0) of a call `c` is `env c i`. -/
def keyed (env : Call → Nat → Resp) : Kernel Unit :=
  { respond := fun _ tr c => (env c (occ c tr), ()) }

/-- Start of a run on a keyed system. -/
def start {PC : Type} (pc : PC) (errno : Int) : Config PC Unit :=
  { pc := pc, errno := errno, world := (), trace := [] }

/-- The answers `env` as they follow the history `tr0`: the `i`-th issue of
a call after `tr0` is its `(occ c tr0 + i)`-th issue overall. -/
def shift (env : Call → Nat → Resp) (tr0 : List Event) : Call → Nat → Resp :=
  fun c i => env c (occ c tr0 + i)

/-- The configuration `c` with the history `tr0` put before its trace. -/
def withHistory {PC : Type} (tr0 : List Event) (c : Config PC Unit) : Config PC Unit :=
  { pc := c.pc, errno := c.errno, world := c.world, trace := tr0 ++ c.trace }

/-! ## Shutdown Controller (`src/shutdown.c`) -/

/-- Control points of `main` and `fail` in `src/shutdown.c`. -/
inductive ShutdownPC where
  | putsTerm -- line 15: `puts("Sending SIGTERM ..")`
  | killTerm -- line 16: `kill(-1, SIGTERM) < 0`
  | sleepGrace -- line 23: `sleep(1)`
  | putsKill -- line 25
  | killKill -- line 26: `kill(-1, SIGKILL) < 0`
  | putsRemount -- line 32
  | remount -- line 33: `mount("", "/", NULL, MS_REMOUNT | MS_RDONLY, NULL) < 0`
  | putsFlush -- line 36
  | sync -- line 37: `sync()`
  | putsDown -- line 39
  | reboot -- line 43: `reboot(LINUX_REBOOT_CMD_POWER_OFF)`
  | fail (msg : String) -- line 53: `fprintf(stderr, ...)` in `fail(msg)`
  | exited (status : Int) -- after `exit(status)`, line 54
  | poweredOff -- `reboot` did not return
deriving DecidableEq, Repr

namespace Shutdown

def killTERM : Call := Call.kill (-1) "SIGTERM"
def sleep1 : Call := Call.sleep 1
def killKILL : Call := Call.kill (-1) "SIGKILL"
def remountRO : Call := Call.mount "" "/" none ["MS_REMOUNT", "MS_RDONLY"]
def powerOff : Call := Call.reboot "LINUX_REBOOT_CMD_POWER_OFF"

/-- The call about to be issued at each control point; `strerror` is the C
library function of that name. -/
def pending (strerror : Int → String) : ShutdownPC → Int → Option Call
  | .putsTerm, _ => some (Call.puts "Sending SIGTERM to all processes..")
  | .killTerm, _ => some killTERM
  | .sleepGrace, _ => some sleep1
  | .putsKill, _ => some (Call.puts "Killing off any remaining processes with SIGKILL..")
  | .killKill, _ => some killKILL
  | .putsRemount, _ => some (Call.puts "Remounting root read-only...")
  | .remount, _ => some remountRO
  | .putsFlush, _ => some (Call.puts "Flushing filesystem buffers...")
  | .sync, _ => some Call.sync
  | .putsDown, _ => some (Call.puts "Shutting down...")
  | .reboot, _ => some powerOff
  | .fail msg, errno => some (Call.fprintfStderr (msg ++ ": " ++ strerror errno ++ "\n"))
  | .exited _, _ => none
  | .poweredOff, _ => none

/-- Control flow of `main` and `fail`. -/
def next : ShutdownPC → Resp → ShutdownPC
  | .putsTerm, _ => .killTerm
  | .killTerm, r =>
    if r.ret < 0 then .fail "Failed to send SIGTERM to all processes" else .sleepGrace
  | .sleepGrace, _ => .putsKill
  | .putsKill, _ => .killKill
  | .killKill, r =>
    if r.ret < 0 then .fail "Failed to kill processes with SIGKILL" else .putsRemount
  | .putsRemount, _ => .remount
  | .remount, r =>
    if r.ret < 0 then .fail "Failed to remount root read-only" else .putsFlush
  | .putsFlush, _ => .sync
  | .sync, _ => .putsDown
  | .putsDown, _ => .reboot
  | .reboot, r => if r.returns then .fail "Shutdown failed" else .poweredOff
  | .fail _, _ => .exited 1
  | .exited s, _ => .exited s
  | .poweredOff, _ => .poweredOff

/-- The program `src/shutdown.c`. -/
def machine (strerror : Int → String) : Machine ShutdownPC :=
  { pending := pending strerror,
    next := next,
    errnoAfter := fun _ r => r.errno }

/-- Exit status of the process, once it has exited. -/
def exitStatus : ShutdownPC → Option Int
  | .exited s => some s
  | _ => none

/-- Calls that act on the system, as opposed to progress and error messages
on the standard streams. -/
def isAction : Call → Bool
  | .puts _ => false
  | .fprintfStderr _ => false
  | _ => true

/-- System actions of a trace, in order. -/
def actions (tr : List Event) : List Call := (calls tr).filter isAction

/-- In the words of the specification: given the protocol steps, each
marked with whether it fails, the longest initial part of the protocol that
ends at the first failing step. -/
def uptoFirstFailure : List (Call × Bool) → List Call
  | [] => []
  | (c, failed) :: rest => if failed then [c] else c :: uptoFirstFailure rest

/-- The protocol of the specification with the outcome of each step under
the answers `env`: the two broadcasts and the remount fail by returning a
negative value, the power-off request fails by returning at all, the grace
period and the flush cannot fail. -/
def protocol (env : Call → Nat → Resp) : List (Call × Bool) :=
  [ (killTERM, decide ((env killTERM 0).ret < 0)),
    (sleep1, false),
    (killKILL, decide ((env killKILL 0).ret < 0)),
    (remountRO, decide ((env remountRO 0).ret < 0)),
    (Call.sync, false),
    (powerOff, (env powerOff 0).returns) ]

end Shutdown

/-! ## C library formatting shared by the programs -/

/-- The conversion `%d` of the C library applied to a C `int`. -/
def fmtInt (v : Int) : String := toString v

/-- Value of a C `int` after an arithmetic result `v` has been stored in
it: 32 bits, two's complement, wrapping around. -/
def wrapInt (v : Int) : Int := (v + 2 ^ 31) % 2 ^ 32 - 2 ^ 31

/-- Bytes passed to `write` by the diagnostic routines of `usbboot.c` and
`start.c`.  `snprintf(buf, size, ...)` stores at most `size - 1` characters
of the formatted `text` followed by a NUL and returns the length `msglen`
of the whole text; the routines then write
`msglen > size ? size : msglen` bytes of the buffer.  A character stands
for one byte. -/
def writtenFromBuffer (size : Nat) (text : String) : String :=
  let buf : List Char := text.data.take (size - 1) ++ [Char.ofNat 0]
  let msglen : Nat := text.length
  let count : Nat := if msglen > size then size else msglen
  String.mk (buf.take count)

/-- A list repeated `n` times. -/
def repeatList {α : Type} : Nat → List α → List α
  | 0, _ => []
  | n + 1, l => repeatList n l ++ l

/-! ## Bootstrap (`src/usbboot.c`) -/

/-- What follows a call of `print_with_errno` in `src/usbboot.c`: the rest
of the loop body with the current value of `failed_mounts`, or
`go_to_sleep` when called from `fail`. -/
inductive BootCont where
  | retry (failedMounts : Int)
  | idle
deriving DecidableEq, Repr

/-- Control points of `src/usbboot.c`, with the live local variables. -/
inductive BootPC where
  | mountRoot (failedMounts : Int) -- line 49: the loop condition `mount(...) < 0`
  | pweOpen (msg : String) (k : BootCont) -- line 98: `open("/dev/console", ...)`
  | pweWrite (msg : String) (fd : Int) (k : BootCont) -- lines 102 to 106: `snprintf`, `write`
  | pweNewline (fd : Int) (k : BootCont) -- line 112: `write(fd, "\n", 1)`
  | pweClose (fd : Int) (k : BootCont) -- line 115: `close(fd)`
  | retrySleep (failedMounts : Int) -- lines 52 and 53: `nanosleep`, then `++failed_mounts`
  | unlink (failedMounts : Int) -- line 59
  | chdir (failedMounts : Int) -- line 63
  | chroot (failedMounts : Int) -- line 66
  | serialOpen (failedMounts : Int) -- line 72
  | serialGetattr (failedMounts : Int) (fd : Int) -- line 73
  | serialSpeed (failedMounts : Int) (fd : Int) -- line 74
  | serialSetattr (failedMounts : Int) (fd : Int) -- line 75
  | serialWrite (failedMounts : Int) (fd : Int) -- lines 76 to 80: `sprintf`, `write`
  | serialClose (fd : Int) -- line 81
  | execInit -- line 84: `execve(INIT, init_args, empty_env)`
  | asleep -- lines 126 and 127: the loop of `go_to_sleep`
  | replaced -- `execve` did not return
deriving DecidableEq, Repr

namespace Bootstrap

/-- The macro `INIT`. -/
def INIT : String := "/bin/start"

/-- The macro `MOUNT_RETRY_MS`. -/
def MOUNT_RETRY_MS : Int := 100

/-- The array `init_args`. -/
def init_args : List String := [INIT]

/-- The array `empty_env`. -/
def empty_env : List String := []

def mountRootCall : Call := Call.mount "/dev/sdb1" "root/" (some "ext2") []
def openConsole : Call := Call.openFile "/dev/console" ["O_WRONLY", "O_NOCTTY"]
def retrySleepCall : Call := Call.nanosleep 0 (100 * 1000000)
def idleSleep : Call := Call.nanosleep 60 0
def unlinkCall : Call := Call.unlink "usbboot"
def chdirCall : Call := Call.chdir "/root"
def chrootCall : Call := Call.chroot "/root"
def openSerial : Call := Call.openFile "/dev/ttyS0" ["O_RDWR", "O_NOCTTY", "O_NDELAY"]
def execInitCall : Call := Call.execve INIT init_args empty_env

def retryMsg : String :=
  "Could not mount the root filesystem - retrying in 100 milliseconds"
def chdirMsg : String := "Failed to chdir() into the root filesystem"
def chrootMsg : String := "Failed to chroot() into the root filesystem"
def execMsg : String :=
  "Failed to execute the init process /bin/start after chdir()+chroot()\x27ing into the root filesystem"

/-- Text formatted by `print_with_errno` with the format
`"%s\n errno = %d (%s)\n"`. -/
def diagText (strerror : Int → String) (msg : String) (errno : Int) : String :=
  msg ++ "\n errno = " ++ fmtInt errno ++ " (" ++ strerror errno ++ ")\n"

/-- Text formatted into `msgbuf` by `main`; the product is computed in
`int`. -/
def waitedLine (failedMounts : Int) : String :=
  "Waited about " ++ fmtInt (wrapInt (failedMounts * MOUNT_RETRY_MS))
    ++ " milliseconds for the root to become available\n"

/-- Size of `msgbuf`. -/
def msgbufSize : Nat := 100

/-- Control point after `print_with_errno` returns. -/
def afterPrint : BootCont → BootPC
  | .retry f => .retrySleep f
  | .idle => .asleep

/-- The call about to be issued at each control point. -/
def pending (strerror : Int → String) : BootPC → Int → Option Call
  | .mountRoot _, _ => some mountRootCall
  | .pweOpen _ _, _ => some openConsole
  | .pweWrite msg fd _, errno =>
    some (Call.write fd (writtenFromBuffer 256 (diagText strerror msg errno)))
  | .pweNewline fd _, _ => some (Call.write fd "\n")
  | .pweClose fd _, _ => some (Call.close fd)
  | .retrySleep _, _ => some retrySleepCall
  | .unlink _, _ => some unlinkCall
  | .chdir _, _ => some chdirCall
  | .chroot _, _ => some chrootCall
  | .serialOpen _, _ => some openSerial
  | .serialGetattr _ fd, _ => some (Call.tcgetattr fd)
  | .serialSpeed _ _, _ => some (Call.cfsetospeed "B115200")
  | .serialSetattr _ fd, _ => some (Call.tcsetattr fd "TCSANOW")
  | .serialWrite f fd, _ => some (Call.write fd (waitedLine f))
  | .serialClose fd, _ => some (Call.close fd)
  | .execInit, _ => some execInitCall
  | .asleep, _ => some idleSleep
  | .replaced, _ => none

/-- Control flow of `main`, `print_with_errno`, `fail` and `go_to_sleep`. -/
def next : BootPC → Resp → BootPC
  | .mountRoot f, r => if r.ret < 0 then .pweOpen retryMsg (.retry f) else .unlink f
  | .pweOpen msg k, r => if r.ret = -1 then afterPrint k else .pweWrite msg r.ret k
  | .pweWrite _ fd k, r => if r.ret ≠ -1 then .pweNewline fd k else .pweClose fd k
  | .pweNewline fd k, _ => .pweClose fd k
  | .pweClose _ k, _ => afterPrint k
  | .retrySleep f, _ => .mountRoot (wrapInt (f + 1))
  | .unlink f, _ => .chdir f
  | .chdir f, r => if r.ret < 0 then .pweOpen chdirMsg .idle else .chroot f
  | .chroot f, r => if r.ret < 0 then .pweOpen chrootMsg .idle else .serialOpen f
  | .serialOpen f, r => .serialGetattr f r.ret
  | .serialGetattr f fd, _ => .serialSpeed f fd
  | .serialSpeed f fd, _ => .serialSetattr f fd
  | .serialSetattr f fd, _ => .serialWrite f fd
  | .serialWrite _ fd, _ => .serialClose fd
  | .serialClose _, _ => .execInit
  | .execInit, r => if r.returns then .pweOpen execMsg .idle else .replaced
  | .asleep, _ => .asleep
  | .replaced, _ => .replaced

/-- The program `src/usbboot.c`. -/
def machine (strerror : Int → String) : Machine BootPC :=
  { pending := pending strerror,
    next := next,
    errnoAfter := fun _ r => r.errno }

/-- Start of `main`: `failed_mounts = 0`, about to evaluate the loop
condition for the first time. -/
def entry : BootPC := .mountRoot 0

/-- Control points inside the mount-retry loop. -/
def inMountLoop : BootPC → Bool
  | .mountRoot _ => true
  | .pweOpen _ (.retry _) => true
  | .pweWrite _ _ (.retry _) => true
  | .pweNewline _ (.retry _) => true
  | .pweClose _ (.retry _) => true
  | .retrySleep _ => true
  | _ => false

/-- The value of `failed_mounts` at a control point where it is live. -/
def failedMounts : BootPC → Option Int
  | .mountRoot f => some f
  | .pweOpen _ (.retry f) => some f
  | .pweWrite _ _ (.retry f) => some f
  | .pweNewline _ (.retry f) => some f
  | .pweClose _ (.retry f) => some f
  | .retrySleep f => some f
  | .unlink f => some f
  | .chdir f => some f
  | .chroot f => some f
  | .serialOpen f => some f
  | .serialGetattr f _ => some f
  | .serialSpeed f _ => some f
  | .serialSetattr f _ => some f
  | .serialWrite f _ => some f
  | _ => none

/-- Calls other than the `write` and `close` calls, which in
`src/usbboot.c` occur only inside `print_with_errno` and in the serial
report. -/
def notWriteClose : Call → Bool
  | .write _ _ => false
  | .close _ => false
  | _ => true

/-- The calls of a trace with the `write` and `close` calls left out. -/
def view (tr : List Event) : List Call := (calls tr).filter notWriteClose

/-- The three calls of one failed round of the loop that `view` shows: the
mount attempt, the diagnostic attempt (which starts by opening the
console), the 100 ms sleep. -/
def failedRound : List Call := [mountRootCall, openConsole, retrySleepCall]

/-- The calls from `unlink` up to the call of `execve`, shown by `view`,
when `chdir` and `chroot` succeed. -/
def handoffCalls (env : Call → Nat → Resp) : List Call :=
  [unlinkCall, chdirCall, chrootCall, openSerial,
   Call.tcgetattr (env openSerial 0).ret, Call.cfsetospeed "B115200",
   Call.tcsetattr (env openSerial 0).ret "TCSANOW", execInitCall]

/-- The run of `src/usbboot.c` from `c0` under `env` ends in `go_to_sleep`:
from some time on the process is in it, and the calls it has issued are,
`write` and `close` aside, `shown` followed by one 60 s sleep per call
since. -/
def SleepsAfter (strerror : Int → String) (env : Call → Nat → Resp)
    (c0 : Config BootPC Unit) (shown : List Call) : Prop :=
  ∃ t0, ∀ n,
    (run (machine strerror) (keyed env) (t0 + n) c0).pc = BootPC.asleep
    ∧ view (run (machine strerror) (keyed env) (t0 + n) c0).trace
        = shown ++ List.replicate n idleSleep

/-- The run of `src/usbboot.c` from `c0` under `env` ends with the image of
the process replaced: from some time on the process issues nothing, and the
calls it has issued are, `write` and `close` aside, `shown`. -/
def ReplacedAfter (strerror : Int → String) (env : Call → Nat → Resp)
    (c0 : Config BootPC Unit) (shown : List Call) : Prop :=
  ∃ t0, ∀ n,
    (run (machine strerror) (keyed env) (t0 + n) c0).pc = BootPC.replaced
    ∧ view (run (machine strerror) (keyed env) (t0 + n) c0).trace = shown

end Bootstrap

/-! ## Init Supervisor (`src/start.c`) -/

/-- Control points of `main`, `fail` and `go_to_sleep` in `src/start.c`. -/
inductive InitPC where
  | sigaction -- line 48: `sigaction(SIGCHLD, &act, NULL) < 0`
  | setsid -- line 52: `setsid() < 0`
  | close0 -- line 58: `close(0)`
  | close1 -- line 58: `close(1)`
  | close2 -- lines 58 and 61: `close(2)`, then `errno = 0`
  | openTty -- line 66: `open(TTY, O_RDWR | O_NONBLOCK, 0) != 0`
  | dupStdout -- line 73: `dup(0) != 1`
  | dupStderr -- line 75: `dup(0) != 2`, then the test of line 81
  | forkIshell -- line 84: `!fork()`
  | forkInitscript -- line 90: `!fork()`
  | execIshell -- line 85: `execve("/bin/busybox", ishell_args, empty_env) == -1`
  | execInitscript -- line 91: `execve(INITSCRIPT, initscript_args, empty_env) == -1`
  | failOpen (msg : String) -- line 106: `open("/dev/console", ...)` in `fail(msg)`
  | failWrite (msg : String) (fd : Int) -- lines 110 to 114: `snprintf`, `write`
  | failNewline (fd : Int) -- line 120: `write(fd, "\n", 1)`
  | failClose (fd : Int) -- line 123: `close(fd)`
  | asleep -- lines 130 and 131: the loop of `go_to_sleep`
  | replaced -- `execve` did not return
deriving DecidableEq, Repr

namespace Init

/-- The macro `TTY`. -/
def TTY : String := "/dev/tty1"

/-- The macro `INITSCRIPT`. -/
def INITSCRIPT : String := "/etc/initscript"

/-- The array `initscript_args`. -/
def initscript_args : List String := ["/bin/busybox", "ash", INITSCRIPT]

/-- The array `ishell_args`. -/
def ishell_args : List String := ["/bin/busybox", "ash"]

/-- The array `empty_env`. -/
def empty_env : List String := []

def sigactionCall : Call := Call.sigaction "SIGCHLD" "SIG_IGN"
def openTtyCall : Call := Call.openFile TTY ["O_RDWR", "O_NONBLOCK"]
def openConsole : Call := Call.openFile "/dev/console" ["O_WRONLY", "O_NOCTTY"]
def idleSleep : Call := Call.nanosleep 60 0
def execIshellCall : Call := Call.execve "/bin/busybox" ishell_args empty_env
def execInitscriptCall : Call := Call.execve INITSCRIPT initscript_args empty_env

def sigchldMsg : String := "Could not ignore SIGCHLD"
def setsidMsg : String := "Could not create new session"
def openTtyMsg : String := "Could not open /dev/tty1 as stdin"
def stdoutMsg : String := "Failed to reassign stdout to /dev/tty1"
def stderrMsg : String := "Failed to reassign stderr to /dev/tty1"
def ishellMsg : String := "Failed to launch interactive shell"
def initscriptMsg : String := "Failed to run initialization script /etc/initscript"

/-- Text formatted by `fail` with the format `"%s\nerrno = %d (%s)\n"`. -/
def failText (strerror : Int → String) (msg : String) (errno : Int) : String :=
  msg ++ "\nerrno = " ++ fmtInt errno ++ " (" ++ strerror errno ++ ")\n"

/-- The condition `argc == 2 && !strcmp(argv[1], "ishell")`; `argc` is the
length of `argv`. -/
def wantsIshell (argv : List String) : Bool :=
  argv.length == 2 && argv.get? 1 == some "ishell"

/-- The call about to be issued at each control point. -/
def pending (strerror : Int → String) : InitPC → Int → Option Call
  | .sigaction, _ => some sigactionCall
  | .setsid, _ => some Call.setsid
  | .close0, _ => some (Call.close 0)
  | .close1, _ => some (Call.close 1)
  | .close2, _ => some (Call.close 2)
  | .openTty, _ => some openTtyCall
  | .dupStdout, _ => some (Call.dup 0)
  | .dupStderr, _ => some (Call.dup 0)
  | .forkIshell, _ => some Call.fork
  | .forkInitscript, _ => some Call.fork
  | .execIshell, _ => some execIshellCall
  | .execInitscript, _ => some execInitscriptCall
  | .failOpen _, _ => some openConsole
  | .failWrite msg fd, errno =>
    some (Call.write fd (writtenFromBuffer 256 (failText strerror msg errno)))
  | .failNewline fd, _ => some (Call.write fd "\n")
  | .failClose fd, _ => some (Call.close fd)
  | .asleep, _ => some idleSleep
  | .replaced, _ => none

/-- Control flow of `main`, `fail` and `go_to_sleep` for the argument
vector `argv`. -/
def next (argv : List String) : InitPC → Resp → InitPC
  | .sigaction, r => if r.ret < 0 then .failOpen sigchldMsg else .setsid
  | .setsid, r => if r.ret < 0 then .failOpen setsidMsg else .close0
  | .close0, _ => .close1
  | .close1, _ => .close2
  | .close2, _ => .openTty
  | .openTty, r => if r.ret ≠ 0 then .failOpen openTtyMsg else .dupStdout
  | .dupStdout, r => if r.ret ≠ 1 then .failOpen stdoutMsg else .dupStderr
  | .dupStderr, r =>
    if r.ret ≠ 2 then .failOpen stderrMsg
    else if wantsIshell argv then .forkIshell else .forkInitscript
  | .forkIshell, r => if r.ret = 0 then .execIshell else .asleep
  | .forkInitscript, r => if r.ret = 0 then .execInitscript else .asleep
  | .execIshell, r =>
    if r.returns then (if r.ret = -1 then .failOpen ishellMsg else .asleep) else .replaced
  | .execInitscript, r =>
    if r.returns then (if r.ret = -1 then .failOpen initscriptMsg else .asleep) else .replaced
  | .failOpen msg, r => if r.ret = -1 then .asleep else .failWrite msg r.ret
  | .failWrite _ fd, r => if r.ret ≠ -1 then .failNewline fd else .failClose fd
  | .failNewline fd, _ => .failClose fd
  | .failClose _, _ => .asleep
  | .asleep, _ => .asleep
  | .replaced, _ => .replaced

/-- The statement `errno = 0;` after the three `close` calls; everywhere
else `errno` is what the call left. -/
def errnoAfter : InitPC → Resp → Int
  | .close2, _ => 0
  | _, r => r.errno

/-- The program `src/start.c` run with the argument vector `argv`. -/
def machine (strerror : Int → String) (argv : List String) : Machine InitPC :=
  { pending := pending strerror,
    next := next argv,
    errnoAfter := errnoAfter }

/-- Start of `main`. -/
def entry : InitPC := .sigaction

/-- The eight calls of the set-up, in program order. -/
def setupCalls : List Call :=
  [sigactionCall, Call.setsid, Call.close 0, Call.close 1, Call.close 2, openTtyCall,
   Call.dup 0, Call.dup 0]

/-- In the words of the claims: the first set-up step that fails under the
answers `env`, as the number of set-up calls issued up to and including it
and the message passed to `fail`; `none` when the set-up succeeds. -/
def setupFailure (env : Call → Nat → Resp) : Option (Nat × String) :=
  if (env sigactionCall 0).ret < 0 then some (1, sigchldMsg)
  else if (env Call.setsid 0).ret < 0 then some (2, setsidMsg)
  else if (env openTtyCall 0).ret ≠ 0 then some (6, openTtyMsg)
  else if (env (Call.dup 0) 0).ret ≠ 1 then some (7, stdoutMsg)
  else if (env (Call.dup 0) 1).ret ≠ 2 then some (8, stderrMsg)
  else none

/-- The calls of one run of `fail` with message `msg`, given the answer
`r` to the opening of the console: the open alone when it fails; otherwise
the open, one write of the diagnostic, possibly the write of the extra
newline, and the close. -/
def IsDiagnostic (strerror : Int → String) (msg : String) (r : Resp) (l : List Call) : Prop :=
  if r.ret = -1 then l = [openConsole]
  else
    l = [openConsole,
         Call.write r.ret (writtenFromBuffer 256 (failText strerror msg r.errno)),
         Call.close r.ret]
    ∨ l = [openConsole,
           Call.write r.ret (writtenFromBuffer 256 (failText strerror msg r.errno)),
           Call.write r.ret "\n",
           Call.close r.ret]

/-- The target of the spawn selected by the argument vector: program path
and argument vector passed to `execve`. -/
def spawnCall (argv : List String) : Call :=
  if wantsIshell argv then execIshellCall else execInitscriptCall

/-- The `fork` and `execve` calls of a trace, in order. -/
def spawnView (tr : List Event) : List Call :=
  (calls tr).filter (fun c => match c with
    | .fork => true
    | .execve _ _ _ => true
    | _ => false)

/-- Control points after the spawn step and inside `fail`: from them no
`fork` or `execve` is issued any more. -/
def pastSpawn : InitPC → Bool
  | .failOpen _ => true
  | .failWrite _ _ => true
  | .failNewline _ => true
  | .failClose _ => true
  | .asleep => true
  | .replaced => true
  | _ => false

end Init

/-! ## A descriptor table for the Init Supervisor -/

/-- An open file description: the path that was opened and the serial
number of the `open` that created it. Descriptors that refer to the same
open file description are equal in both. -/
structure OpenFile where
  path : String
  serial : Nat
deriving DecidableEq, Repr

/-- Descriptor table of a process: entry `fd` is the open file description
descriptor `fd` refers to; entries past the end are free. -/
abbrev FdTable := List (Option OpenFile)

/-- What descriptor `fd` refers to. -/
def lookupFd : FdTable → Nat → Option OpenFile
  | [], _ => none
  | x :: _, 0 => x
  | _ :: rest, n + 1 => lookupFd rest n

/-- The table with descriptor `fd` set to `v`. -/
def setFd : FdTable → Nat → Option OpenFile → FdTable
  | [], 0, v => [v]
  | [], n + 1, v => none :: setFd [] n v
  | _ :: rest, 0, v => v :: rest
  | x :: rest, n + 1, v => x :: setFd rest n v

/-- The lowest free descriptor. -/
def lowestFree : FdTable → Nat
  | [] => 0
  | none :: _ => 0
  | some _ :: rest => lowestFree rest + 1

/-- State of the descriptor-table model: the table and the number of opens
made so far. -/
structure FdWorld where
  table : FdTable
  opened : Nat

/-- The system with a descriptor table. `close` frees an open descriptor
and fails on a free one; `open` and `dup` either fail or return the lowest
free descriptor, `open` binding it to a new open file description and `dup`
to the one of its argument, as the comments of `src/start.c` assume (lines
63 to 65 and 69 to 72). Whether an `open` or `dup` fails, and every answer
to any other call, is given by `env`. -/
def fdKernel (env : Call → Nat → Resp) : Kernel FdWorld :=
  { respond := fun w tr c =>
      let r := env c (occ c tr)
      match c with
      | .close fd =>
        if 0 ≤ fd ∧ (lookupFd w.table fd.toNat).isSome then
          ({ ret := 0, errno := r.errno, returns := true },
           { table := setFd w.table fd.toNat none, opened := w.opened })
        else ({ ret := -1, errno := 9, returns := true }, w)
      | .openFile path _ =>
        if r.ret < 0 then ({ ret := -1, errno := r.errno, returns := true }, w)
        else
          ({ ret := (lowestFree w.table : Int), errno := r.errno, returns := true },
           { table := setFd w.table (lowestFree w.table) (some { path := path, serial := w.opened }),
             opened := w.opened + 1 })
      | .dup fd =>
        match (if 0 ≤ fd then lookupFd w.table fd.toNat else none) with
        | none => ({ ret := -1, errno := 9, returns := true }, w)
        | some f =>
          if r.ret < 0 then ({ ret := -1, errno := r.errno, returns := true }, w)
          else
            ({ ret := (lowestFree w.table : Int), errno := r.errno, returns := true },
             { table := setFd w.table (lowestFree w.table) (some f), opened := w.opened })
      | _ => (r, w) }

namespace Init

/-- Values returned by the `open` and `dup` calls of a trace, in order. -/
def bindingRets (tr : List Event) : List (Call × Int) :=
  (tr.filter (fun e => match e.1 with
    | .openFile _ _ => true
    | .dup _ => true
    | _ => false)).map (fun e => (e.1, e.2.ret))

/-- What holds at each control point of the set-up of `src/start.c` in the
descriptor-table model started in the world `w0`: the calls issued so far,
the values returned by `open` and `dup`, and the state of descriptors 0, 1
and 2, where `tty` is the open file description made by the open of
`/dev/tty1`. -/
def bindingInv (w0 : FdWorld) (pc : InitPC) (w : FdWorld) (tr : List Event) : Prop :=
  match pc with
  | .sigaction => calls tr = setupCalls.take 0 ∧ bindingRets tr = [] ∧ w.opened = w0.opened
  | .setsid => calls tr = setupCalls.take 1 ∧ bindingRets tr = [] ∧ w.opened = w0.opened
  | .close0 => calls tr = setupCalls.take 2 ∧ bindingRets tr = [] ∧ w.opened = w0.opened
  | .close1 => calls tr = setupCalls.take 3 ∧ bindingRets tr = [] ∧ w.opened = w0.opened
      ∧ lookupFd w.table 0 = none
  | .close2 => calls tr = setupCalls.take 4 ∧ bindingRets tr = [] ∧ w.opened = w0.opened
      ∧ lookupFd w.table 0 = none ∧ lookupFd w.table 1 = none
  | .openTty => calls tr = setupCalls.take 5 ∧ bindingRets tr = [] ∧ w.opened = w0.opened
      ∧ lookupFd w.table 0 = none ∧ lookupFd w.table 1 = none ∧ lookupFd w.table 2 = none
  | .dupStdout => calls tr = setupCalls.take 6
      ∧ bindingRets tr = [(openTtyCall, 0)]
      ∧ lookupFd w.table 0 = some { path := TTY, serial := w0.opened }
      ∧ lookupFd w.table 1 = none ∧ lookupFd w.table 2 = none
  | .dupStderr => calls tr = setupCalls.take 7
      ∧ bindingRets tr = [(openTtyCall, 0), (Call.dup 0, 1)]
      ∧ lookupFd w.table 0 = some { path := TTY, serial := w0.opened }
      ∧ lookupFd w.table 1 = some { path := TTY, serial := w0.opened }
      ∧ lookupFd w.table 2 = none
  | .forkIshell => calls tr = setupCalls
      ∧ bindingRets tr = [(openTtyCall, 0), (Call.dup 0, 1), (Call.dup 0, 2)]
      ∧ lookupFd w.table 0 = some { path := TTY, serial := w0.opened }
      ∧ lookupFd w.table 1 = some { path := TTY, serial := w0.opened }
      ∧ lookupFd w.table 2 = some { path := TTY, serial := w0.opened }
  | .forkInitscript => calls tr = setupCalls
      ∧ bindingRets tr = [(openTtyCall, 0), (Call.dup 0, 1), (Call.dup 0, 2)]
      ∧ lookupFd w.table 0 = some { path := TTY, serial := w0.opened }
      ∧ lookupFd w.table 1 = some { path := TTY, serial := w0.opened }
      ∧ lookupFd w.table 2 = some { path := TTY, serial := w0.opened }
  | _ => True

end Init

/-! ## Answers of the system used as examples -/

/-- Answers of the system under which the first `N` attempts to mount the
root fail and every other call returns 0. When a mount fails, `errno` is
19 after every call: the failing mount sets it and the other calls leave it
alone. -/
def failingFirst (N : Nat) : Call → Nat → Resp :=
  fun c i =>
    { ret := if c = Bootstrap.mountRootCall ∧ i < N then -1 else 0,
      errno := if N = 0 then 0 else 19,
      returns := true }

/-- Answers of the system under which every attempt to mount the root
fails, leaving `errno` at 19, and every other call returns 0. -/
def failingForever : Call → Nat → Resp :=
  fun c _ =>
    { ret := if c = Bootstrap.mountRootCall then -1 else 0,
      errno := 19,
      returns := true }

/-- Answers of the system given by two lists: a call in `failing` returns
-1, any other call returns 0; a call in `notReturning` does not return.
When some call is to fail, `errno` is 5 after every call: the failing call
sets it and the other calls leave it alone. -/
def scripted (failing notReturning : List Call) : Call → Nat → Resp :=
  fun c _ =>
    { ret := if c ∈ failing then -1 else 0,
      errno := if failing = [] then 0 else 5,
      returns := !(notReturning.contains c) }

/-- Answers of the system under which the set-up of `src/start.c`
succeeds: the `i`-th `dup(0)` returns `1 + i`, `fork` returns `forkRet`,
and every other call answers as in `scripted`. -/
def initAnswers (forkRet : Int) (failing notReturning : List Call) : Call → Nat → Resp :=
  fun c i =>
    if c = Call.dup 0 then { ret := 1 + (i : Int), errno := 0, returns := true }
    else if c = Call.fork then { ret := forkRet, errno := 0, returns := true }
    else scripted failing notReturning c i

/-- Answers of the system under which every call returns 0 and `errno`
stays 19. -/
def errno19 : Call → Nat → Resp :=
  fun _ _ => { ret := 0, errno := 19, returns := true }

/-! ## C `int` arithmetic -/

theorem wrapInt_succ (i : Int) : wrapInt (wrapInt i + 1) = wrapInt (i + 1) := by
  unfold wrapInt
  omega

theorem wrapInt_of_int_range (i : Int) (h0 : -2 ^ 31 ≤ i) (h1 : i < 2 ^ 31) : wrapInt i = i := by
  unfold wrapInt
  omega

theorem wrapInt_range (i : Int) : -2 ^ 31 ≤ wrapInt i ∧ wrapInt i < 2 ^ 31 := by
  unfold wrapInt
  omega

/-! ## General facts about runs -/

theorem run_add {PC K : Type} (m : Machine PC) (k : Kernel K) (a b : Nat) (c : Config PC K) :
    run m k (a + b) c = run m k b (run m k a c) := by
  induction a generalizing c with
  | zero => simp [run]
  | succ n ih => rw [Nat.succ_add]; exact ih (step m k c)

theorem run_succ_last {PC K : Type} (m : Machine PC) (k : Kernel K) (n : Nat) (c : Config PC K) :
    run m k (n + 1) c = step m k (run m k n c) := by
  rw [run_add]; rfl

theorem step_of_pending {PC K : Type} (m : Machine PC) (k : Kernel K) (c : Config PC K)
    (call : Call) (h : m.pending c.pc c.errno = some call) :
    step m k c =
      { pc := m.next c.pc (k.respond c.world c.trace call).1,
        errno := m.errnoAfter c.pc (k.respond c.world c.trace call).1,
        world := (k.respond c.world c.trace call).2,
        trace := c.trace ++ [(call, (k.respond c.world c.trace call).1)] } := by
  simp [step, h]

theorem step_of_over {PC K : Type} (m : Machine PC) (k : Kernel K) (c : Config PC K)
    (h : m.pending c.pc c.errno = none) : step m k c = c := by
  simp [step, h]

theorem run_of_over {PC K : Type} (m : Machine PC) (k : Kernel K) (n : Nat) (c : Config PC K)
    (h : m.pending c.pc c.errno = none) : run m k n c = c := by
  induction n with
  | zero => rfl
  | succ n ih => simp [run, step_of_over m k c h, ih]

/-- What one call does to a process that is not over. -/
theorem exists_step {PC K : Type} (m : Machine PC) (k : Kernel K) (c : Config PC K)
    (call : Call) (h : m.pending c.pc c.errno = some call) :
    ∃ r : Resp, r = (k.respond c.world c.trace call).1
      ∧ (step m k c).pc = m.next c.pc r
      ∧ (step m k c).trace = c.trace ++ [(call, r)]
      ∧ (step m k c).errno = m.errnoAfter c.pc r := by
  refine ⟨(k.respond c.world c.trace call).1, rfl, ?_, ?_, ?_⟩ <;> simp [step, h]

/-- A property kept by every call holds all along a run. -/
theorem run_invariant {PC K : Type} (m : Machine PC) (k : Kernel K) (P : Config PC K → Prop)
    (hstep : ∀ c, P c → P (step m k c)) (n : Nat) (c : Config PC K) (h : P c) :
    P (run m k n c) := by
  induction n generalizing c with
  | zero => exact h
  | succ n ih => exact ih (step m k c) (hstep c h)

/-- A run only ever extends the trace. -/
theorem trace_step_extends {PC K : Type} (m : Machine PC) (k : Kernel K) (c : Config PC K) :
    ∃ rest, (step m k c).trace = c.trace ++ rest := by
  unfold step
  split
  · exact ⟨[], by simp⟩
  · exact ⟨_, rfl⟩

theorem trace_run_extends {PC K : Type} (m : Machine PC) (k : Kernel K) (n : Nat)
    (c : Config PC K) : ∃ rest, (run m k n c).trace = c.trace ++ rest := by
  induction n generalizing c with
  | zero => exact ⟨[], by simp [run]⟩
  | succ n ih =>
    obtain ⟨r1, h1⟩ := trace_step_extends m k c
    obtain ⟨r2, h2⟩ := ih (step m k c)
    exact ⟨r1 ++ r2, by simp [run, h2, h1]⟩

/-- Once a run is over, every longer run ends in the same configuration;
every shorter run has recorded an initial part of its trace. -/
theorem trace_initial_part {PC K : Type} (m : Machine PC) (k : Kernel K) (n : Nat)
    (c : Config PC K) (h : m.pending (run m k n c).pc (run m k n c).errno = none) (t : Nat) :
    ∃ rest, (run m k t c).trace ++ rest = (run m k n c).trace := by
  rcases Nat.le_total t n with hle | hle
  · obtain ⟨d, rfl⟩ := Nat.exists_eq_add_of_le hle
    obtain ⟨rest, hrest⟩ := trace_run_extends m k d (run m k t c)
    exact ⟨rest, by rw [run_add, hrest]⟩
  · obtain ⟨d, rfl⟩ := Nat.exists_eq_add_of_le hle
    exact ⟨[], by rw [run_add, run_of_over m k d _ h]; simp⟩

theorem occ_append (c : Call) (tr1 tr2 : List Event) :
    occ c (tr1 ++ tr2) = occ c tr1 + occ c tr2 := by
  simp [occ, calls, List.count_append]

/-- On a keyed system a history only renumbers the issues of each call. -/
theorem step_shift {PC : Type} (m : Machine PC) (env : Call → Nat → Resp)
    (tr0 : List Event) (c : Config PC Unit) :
    step m (keyed env) (withHistory tr0 c)
      = withHistory tr0 (step m (keyed (shift env tr0)) c) := by
  unfold step
  show (match m.pending c.pc c.errno with
      | none => withHistory tr0 c
      | some call => _) = withHistory tr0 (match m.pending c.pc c.errno with
      | none => c
      | some call => _)
  cases m.pending c.pc c.errno with
  | none => rfl
  | some call =>
    simp only [withHistory, keyed, shift, occ_append, List.append_assoc]

theorem run_shift {PC : Type} (m : Machine PC) (env : Call → Nat → Resp)
    (tr0 : List Event) (n : Nat) (c : Config PC Unit) :
    run m (keyed env) n (withHistory tr0 c)
      = withHistory tr0 (run m (keyed (shift env tr0)) n c) := by
  induction n generalizing c with
  | zero => rfl
  | succ n ih => simp only [run, step_shift, ih]

theorem withHistory_start {PC : Type} (c : Config PC Unit) :
    c = withHistory c.trace (start c.pc c.errno) := by
  obtain ⟨pc, e, w, tr⟩ := c
  simp [withHistory, start]

/-! ## Shutdown Controller: the protocol -/

/-- The exit status of the Shutdown Controller is 1 whenever it has one. -/
theorem Shutdown.exit_status_one (strerror : Int → String) (k : Kernel Unit) (e0 : Int)
    (t : Nat) (s : Int)
    (h : Shutdown.exitStatus (run (Shutdown.machine strerror) k t (start .putsTerm e0)).pc = some s) :
    s = 1 := by
  have inv := run_invariant (Shutdown.machine strerror) k
    (fun c => ∀ s, c.pc = ShutdownPC.exited s → s = 1)
    (by
      intro c hc s hs
      unfold step at hs
      cases hpc : c.pc <;>
        simp [hpc, Shutdown.machine, Shutdown.pending, Shutdown.next] at hs
      all_goals first
        | (split at hs <;> simp at hs)
        | exact hs.symm
        | exact hc s (by rw [hpc, hs]))
    t (start .putsTerm e0) (by intro s hs; simp [start] at hs)
  cases hpc : (run (Shutdown.machine strerror) k t (start .putsTerm e0)).pc <;>
    simp [hpc, Shutdown.exitStatus] at h
  exact inv s (by rw [hpc, h])

/-- C1. Under every combination of answers of the system, the system
actions performed by `main` of `src/shutdown.c` are exactly the part of the
protocol SIGTERM broadcast, 1 s sleep, SIGKILL broadcast, read-only remount,
sync, power-off up to and including the first failing step; the run is over
after at most twelve calls, either powered off (all six steps done, the
power-off request did not return) or exited with status 1; every shorter
run has performed an initial part of these actions; and an exit status, at
any time, is 1. -/
theorem shutdown_sequence (strerror : Int → String) (env : Call → Nat → Resp) (e0 : Int) :
    Shutdown.actions
        (run (Shutdown.machine strerror) (keyed env) 12 (start .putsTerm e0)).trace
      = Shutdown.uptoFirstFailure (Shutdown.protocol env)
    ∧ ((run (Shutdown.machine strerror) (keyed env) 12 (start .putsTerm e0)).pc
          = ShutdownPC.exited 1
        ∨ ((run (Shutdown.machine strerror) (keyed env) 12 (start .putsTerm e0)).pc
              = ShutdownPC.poweredOff
            ∧ Shutdown.uptoFirstFailure (Shutdown.protocol env)
                = [Shutdown.killTERM, Shutdown.sleep1, Shutdown.killKILL,
                   Shutdown.remountRO, Call.sync, Shutdown.powerOff]
            ∧ (env Shutdown.powerOff 0).returns = false))
    ∧ (∀ t, ∃ rest,
        Shutdown.actions
            (run (Shutdown.machine strerror) (keyed env) t (start .putsTerm e0)).trace ++ rest
          = Shutdown.uptoFirstFailure (Shutdown.protocol env))
    ∧ (∀ t s,
        Shutdown.exitStatus
            (run (Shutdown.machine strerror) (keyed env) t (start .putsTerm e0)).pc = some s →
          s = 1) := by
  have key :
      Shutdown.actions
          (run (Shutdown.machine strerror) (keyed env) 12 (start .putsTerm e0)).trace
        = Shutdown.uptoFirstFailure (Shutdown.protocol env)
      ∧ ((run (Shutdown.machine strerror) (keyed env) 12 (start .putsTerm e0)).pc
            = ShutdownPC.exited 1
          ∨ ((run (Shutdown.machine strerror) (keyed env) 12 (start .putsTerm e0)).pc
                = ShutdownPC.poweredOff
              ∧ Shutdown.uptoFirstFailure (Shutdown.protocol env)
                  = [Shutdown.killTERM, Shutdown.sleep1, Shutdown.killKILL,
                     Shutdown.remountRO, Call.sync, Shutdown.powerOff]
              ∧ (env Shutdown.powerOff 0).returns = false)) := by
    by_cases h1 : (env (Call.kill (-1) "SIGTERM") 0).ret < 0 <;>
    by_cases h2 : (env (Call.kill (-1) "SIGKILL") 0).ret < 0 <;>
    by_cases h3 : (env (Call.mount "" "/" none ["MS_REMOUNT", "MS_RDONLY"]) 0).ret < 0 <;>
    cases h4 : (env (Call.reboot "LINUX_REBOOT_CMD_POWER_OFF") 0).returns <;>
    simp [run, step, start, keyed, occ, calls, Shutdown.machine, Shutdown.pending,
      Shutdown.next, Shutdown.actions, Shutdown.isAction, Shutdown.uptoFirstFailure,
      Shutdown.protocol, Shutdown.killTERM, Shutdown.killKILL, Shutdown.remountRO,
      Shutdown.powerOff, Shutdown.sleep1, h1, h2, h3, h4]
  refine ⟨key.1, key.2, ?_, ?_⟩
  · intro t
    have hover : (Shutdown.machine strerror).pending
        (run (Shutdown.machine strerror) (keyed env) 12 (start .putsTerm e0)).pc
        (run (Shutdown.machine strerror) (keyed env) 12 (start .putsTerm e0)).errno = none := by
      rcases key.2 with h | ⟨h, _⟩ <;>
        (show Shutdown.pending strerror _ _ = none) <;> rw [h] <;> rfl
    obtain ⟨rest, hrest⟩ := trace_initial_part (Shutdown.machine strerror) (keyed env) 12
      (start .putsTerm e0) hover t
    refine ⟨Shutdown.actions rest, ?_⟩
    rw [← key.1, ← hrest]
    simp [Shutdown.actions, calls]
  · intro t s h
    exact Shutdown.exit_status_one strerror (keyed env) e0 t s h

theorem shutdown_sequence_witness :
    Shutdown.actions
        (run (Shutdown.machine (fun _ => "")) (keyed (scripted [Shutdown.remountRO] [])) 12
          (start .putsTerm 0)).trace
      = [Shutdown.killTERM, Shutdown.sleep1, Shutdown.killKILL, Shutdown.remountRO]
    ∧ Shutdown.exitStatus
        (run (Shutdown.machine (fun _ => "")) (keyed (scripted [Shutdown.remountRO] [])) 9
          (start .putsTerm 0)).pc = some 1
    ∧ (1 : Int) = 1 :=
  ⟨(shutdown_sequence (fun _ => "") (scripted [Shutdown.remountRO] []) 0).1.trans (by decide),
    by decide,
    (shutdown_sequence (fun _ => "") (scripted [Shutdown.remountRO] []) 0).2.2.2 9 1
      (by decide)⟩

/-! ## Bootstrap: the mount-retry loop -/

namespace Bootstrap

theorem view_append (a b : List Event) : view (a ++ b) = view a ++ view b := by
  simp [view, calls]

theorem occ_eq_count_view (c : Call) (h : notWriteClose c = true) (tr : List Event) :
    occ c tr = (view tr).count c := by
  simp only [occ, view]
  induction calls tr with
  | nil => rfl
  | cons x xs ih =>
    by_cases hx : notWriteClose x = true
    · simp [List.filter_cons, hx, List.count_cons, ih]
    · have hne : x ≠ c := by
        intro hxc
        rw [hxc] at hx
        exact hx h
      simp [List.filter_cons, hx, List.count_cons, ih, hne]

theorem count_repeatList {α : Type} [DecidableEq α] (a : α) (n : Nat) (l : List α) :
    (repeatList n l).count a = n * l.count a := by
  induction n with
  | zero => simp [repeatList]
  | succ n ih => simp [repeatList, List.count_append, ih, Nat.succ_mul]

/-- The routine `print_with_errno` returns: from its first call the process
reaches the control point that follows it, having issued, `write` and
`close` aside, the console open only. -/
theorem pwe_returns (strerror : Int → String) (env : Call → Nat → Resp)
    (c : Config BootPC Unit) (msg : String) (k : BootCont) (hpc : c.pc = .pweOpen msg k) :
    ∃ m, (run (machine strerror) (keyed env) m c).pc = afterPrint k
      ∧ view (run (machine strerror) (keyed env) m c).trace = view c.trace ++ [openConsole] := by
  obtain ⟨r1, -, hpc1, htr1, -⟩ :=
    exists_step (machine strerror) (keyed env) c openConsole (by rw [hpc]; rfl)
  rw [hpc] at hpc1
  by_cases h1 : r1.ret = -1
  · refine ⟨1, ?_, ?_⟩
    · show (step _ _ c).pc = _
      rw [hpc1]; simp [machine, next, h1]
    · show view (step _ _ c).trace = _
      rw [htr1, view_append]; rfl
  · have hpc1' : (step (machine strerror) (keyed env) c).pc = .pweWrite msg r1.ret k := by
      rw [hpc1]; simp [machine, next, h1]
    obtain ⟨r2, -, hpc2, htr2, -⟩ :=
      exists_step (machine strerror) (keyed env) (step (machine strerror) (keyed env) c) _
        (by rw [hpc1']; rfl)
    rw [hpc1'] at hpc2
    by_cases h2 : r2.ret = -1
    · have hpc2' : (step (machine strerror) (keyed env)
          (step (machine strerror) (keyed env) c)).pc = .pweClose r1.ret k := by
        rw [hpc2]; simp [machine, next, h2]
      obtain ⟨r3, -, hpc3, htr3, -⟩ :=
        exists_step (machine strerror) (keyed env)
          (step (machine strerror) (keyed env) (step (machine strerror) (keyed env) c)) _
          (by rw [hpc2']; rfl)
      rw [hpc2'] at hpc3
      refine ⟨3, ?_, ?_⟩
      · show (step _ _ (step _ _ (step _ _ c))).pc = _
        rw [hpc3]; rfl
      · show view (step _ _ (step _ _ (step _ _ c))).trace = _
        rw [htr3, htr2, htr1]; simp only [view_append]
        simp [view, calls, notWriteClose, openConsole]
    · have hpc2' : (step (machine strerror) (keyed env)
          (step (machine strerror) (keyed env) c)).pc = .pweNewline r1.ret k := by
        rw [hpc2]; simp [machine, next, h2]
      obtain ⟨r3, -, hpc3, htr3, -⟩ :=
        exists_step (machine strerror) (keyed env)
          (step (machine strerror) (keyed env) (step (machine strerror) (keyed env) c)) _
          (by rw [hpc2']; rfl)
      rw [hpc2'] at hpc3
      have hpc3' : (step (machine strerror) (keyed env) (step (machine strerror) (keyed env)
          (step (machine strerror) (keyed env) c))).pc = .pweClose r1.ret k := by
        rw [hpc3]; rfl
      obtain ⟨r4, -, hpc4, htr4, -⟩ :=
        exists_step (machine strerror) (keyed env)
          (step (machine strerror) (keyed env) (step (machine strerror) (keyed env)
            (step (machine strerror) (keyed env) c))) _
          (by rw [hpc3']; rfl)
      rw [hpc3'] at hpc4
      refine ⟨4, ?_, ?_⟩
      · show (step _ _ (step _ _ (step _ _ (step _ _ c)))).pc = _
        rw [hpc4]; rfl
      · show view (step _ _ (step _ _ (step _ _ (step _ _ c)))).trace = _
        rw [htr4, htr3, htr2, htr1]; simp only [view_append]
        simp [view, calls, notWriteClose, openConsole]

/-- One failed round: from the loop condition with a failing mount the
process comes back to the loop condition with the counter increased, having
issued, `write` and `close` aside, the mount, the console open and the
100 ms sleep. -/
theorem failed_round (strerror : Int → String) (env : Call → Nat → Resp)
    (c : Config BootPC Unit) (f : Int) (hpc : c.pc = .mountRoot f)
    (hfail : (env mountRootCall (occ mountRootCall c.trace)).ret < 0) :
    ∃ m, (run (machine strerror) (keyed env) m c).pc = .mountRoot (wrapInt (f + 1))
      ∧ view (run (machine strerror) (keyed env) m c).trace = view c.trace ++ failedRound := by
  obtain ⟨r1, hr1, hpc1, htr1, -⟩ :=
    exists_step (machine strerror) (keyed env) c mountRootCall (by rw [hpc]; rfl)
  have hr1' : r1.ret < 0 := by rw [hr1]; exact hfail
  have hpc1' : (run (machine strerror) (keyed env) 1 c).pc = .pweOpen retryMsg (.retry f) := by
    show (step _ _ c).pc = _
    rw [hpc1, hpc]; simp [machine, next, hr1']
  obtain ⟨m, hpc2, htr2⟩ := pwe_returns strerror env _ _ _ hpc1'
  rw [← run_add] at hpc2 htr2
  obtain ⟨r3, -, hpc3, htr3, -⟩ :=
    exists_step (machine strerror) (keyed env) (run (machine strerror) (keyed env) (1 + m) c)
      retrySleepCall (by rw [hpc2]; rfl)
  rw [← run_succ_last, hpc2] at hpc3
  rw [← run_succ_last] at htr3
  refine ⟨1 + m + 1, hpc3, ?_⟩
  rw [htr3, view_append, htr2]
  have h1 : view (run (machine strerror) (keyed env) 1 c).trace = view c.trace ++ [mountRootCall] := by
    show view (step _ _ c).trace = _
    rw [htr1, view_append]; rfl
  rw [h1]
  simp [failedRound, view, calls, notWriteClose, retrySleepCall]

/-- After `N` failed mounts the process is back at the loop condition with
the counter at `N` (as a C `int`), having issued `N` failed rounds. -/
theorem loop_rounds (strerror : Int → String) (env : Call → Nat → Resp) (e0 : Int) (N : Nat)
    (hfail : ∀ i, i < N → (env mountRootCall i).ret < 0) :
    ∃ t, (run (machine strerror) (keyed env) t (start entry e0)).pc = .mountRoot (wrapInt N)
      ∧ view (run (machine strerror) (keyed env) t (start entry e0)).trace
          = repeatList N failedRound := by
  induction N with
  | zero => exact ⟨0, rfl, rfl⟩
  | succ n ih =>
    obtain ⟨t, hpc, htr⟩ := ih (fun i hi => hfail i (Nat.lt_succ_of_lt hi))
    have hocc : occ mountRootCall (run (machine strerror) (keyed env) t (start entry e0)).trace
        = n := by
      rw [occ_eq_count_view mountRootCall rfl, htr, count_repeatList]
      simp [failedRound, mountRootCall, openConsole, retrySleepCall]
    obtain ⟨m, hpc2, htr2⟩ := failed_round strerror env _ _ hpc
      (by rw [hocc]; exact hfail n (Nat.lt_succ_self n))
    rw [← run_add] at hpc2 htr2
    refine ⟨t + m, ?_, ?_⟩
    · rw [hpc2, wrapInt_succ]; simp
    · rw [htr2, htr]; rfl

/-- The loop ends at the first successful mount: the process is then about
to call `unlink`. -/
theorem loop_exit (strerror : Int → String) (env : Call → Nat → Resp) (e0 : Int) (N : Nat)
    (hfail : ∀ i, i < N → (env mountRootCall i).ret < 0)
    (hok : ¬ (env mountRootCall N).ret < 0) :
    ∃ t, (run (machine strerror) (keyed env) t (start entry e0)).pc = .unlink (wrapInt N)
      ∧ view (run (machine strerror) (keyed env) t (start entry e0)).trace
          = repeatList N failedRound ++ [mountRootCall] := by
  obtain ⟨t, hpc, htr⟩ := loop_rounds strerror env e0 N hfail
  have hocc : occ mountRootCall (run (machine strerror) (keyed env) t (start entry e0)).trace
      = N := by
    rw [occ_eq_count_view mountRootCall rfl, htr, count_repeatList]
    simp [failedRound, mountRootCall, openConsole, retrySleepCall]
  obtain ⟨r, hr, hpc1, htr1, -⟩ := exists_step (machine strerror) (keyed env)
    (run (machine strerror) (keyed env) t (start entry e0)) mountRootCall (by rw [hpc]; rfl)
  have hr' : ¬ r.ret < 0 := by
    rw [hr]; show ¬ (env mountRootCall (occ mountRootCall _)).ret < 0
    rw [hocc]; exact hok
  rw [← run_succ_last] at hpc1 htr1
  refine ⟨t + 1, ?_, ?_⟩
  · rw [hpc1, hpc]; simp [machine, next, hr']
  · rw [htr1, view_append, htr]; rfl

/-- While every mount fails the process stays inside the loop. -/
theorem stays_in_loop (strerror : Int → String) (env : Call → Nat → Resp) (e0 : Int)
    (hfail : ∀ i, (env mountRootCall i).ret < 0) (t : Nat) :
    inMountLoop (run (machine strerror) (keyed env) t (start entry e0)).pc = true := by
  apply run_invariant (machine strerror) (keyed env) (fun c => inMountLoop c.pc = true)
  · intro c hc
    cases hpc : c.pc with
    | mountRoot f =>
      obtain ⟨r, hr, hpc1, -, -⟩ := exists_step (machine strerror) (keyed env) c mountRootCall
        (by rw [hpc]; rfl)
      have hr' : r.ret < 0 := by rw [hr]; exact hfail _
      show inMountLoop (step _ _ c).pc = true
      rw [hpc1, hpc]; simp [machine, next, hr', inMountLoop]
    | pweOpen msg k =>
      rw [hpc] at hc
      cases k with
      | idle => simp [inMountLoop] at hc
      | retry f =>
        obtain ⟨r, -, hpc1, -, -⟩ := exists_step (machine strerror) (keyed env) c openConsole
          (by rw [hpc]; rfl)
        show inMountLoop (step _ _ c).pc = true
        rw [hpc1, hpc]; simp only [machine, next]
        split_ifs <;> simp [inMountLoop, afterPrint]
    | pweWrite msg fd k =>
      rw [hpc] at hc
      cases k with
      | idle => simp [inMountLoop] at hc
      | retry f =>
        obtain ⟨r, -, hpc1, -, -⟩ := exists_step (machine strerror) (keyed env) c _
          (by rw [hpc]; rfl)
        show inMountLoop (step _ _ c).pc = true
        rw [hpc1, hpc]; simp only [machine, next]
        split_ifs <;> simp [inMountLoop, afterPrint]
    | pweNewline fd k =>
      rw [hpc] at hc
      cases k with
      | idle => simp [inMountLoop] at hc
      | retry f =>
        obtain ⟨r, -, hpc1, -, -⟩ := exists_step (machine strerror) (keyed env) c _
          (by rw [hpc]; rfl)
        show inMountLoop (step _ _ c).pc = true
        rw [hpc1, hpc]; simp [machine, next, inMountLoop]
    | pweClose fd k =>
      rw [hpc] at hc
      cases k with
      | idle => simp [inMountLoop] at hc
      | retry f =>
        obtain ⟨r, -, hpc1, -, -⟩ := exists_step (machine strerror) (keyed env) c _
          (by rw [hpc]; rfl)
        show inMountLoop (step _ _ c).pc = true
        rw [hpc1, hpc]; simp [machine, next, inMountLoop, afterPrint]
    | retrySleep f =>
      obtain ⟨r, -, hpc1, -, -⟩ := exists_step (machine strerror) (keyed env) c retrySleepCall
        (by rw [hpc]; rfl)
      show inMountLoop (step _ _ c).pc = true
      rw [hpc1, hpc]; simp [machine, next, inMountLoop]
    | _ => rw [hpc] at hc; simp [inMountLoop] at hc
  · rfl

/-- A call leaves `failed_mounts` alone or stores a C `int` in it. -/
theorem failedMounts_next (pc : BootPC) (r : Resp) (f : Int)
    (h : failedMounts (next pc r) = some f) :
    failedMounts pc = some f ∨ ∃ g, f = wrapInt g := by
  cases pc with
  | pweOpen msg k =>
    cases k <;> simp only [next] at h <;> split_ifs at h <;>
      simp_all [failedMounts, afterPrint]
  | pweWrite msg fd k =>
    cases k <;> simp only [next] at h <;> split_ifs at h <;>
      simp_all [failedMounts, afterPrint]
  | pweNewline fd k => cases k <;> simp_all [next, failedMounts, afterPrint]
  | pweClose fd k => cases k <;> simp_all [next, failedMounts, afterPrint]
  | retrySleep g => exact Or.inr ⟨g + 1, by simpa [next, failedMounts] using h.symm⟩
  | mountRoot g => simp only [next] at h; split_ifs at h <;> simp_all [failedMounts]
  | chdir g => simp only [next] at h; split_ifs at h <;> simp_all [failedMounts]
  | chroot g => simp only [next] at h; split_ifs at h <;> simp_all [failedMounts]
  | execInit => simp only [next] at h; split_ifs at h <;> simp_all [failedMounts]
  | _ => simp_all [next, failedMounts]

/-- The counter `failed_mounts` always holds a value of the C type `int`. -/
theorem failedMounts_is_int (strerror : Int → String) (k : Kernel Unit) (e0 : Int) (t : Nat)
    (f : Int) (h : failedMounts (run (machine strerror) k t (start entry e0)).pc = some f) :
    -2 ^ 31 ≤ f ∧ f < 2 ^ 31 := by
  have inv := run_invariant (machine strerror) k
    (fun c => ∀ f, failedMounts c.pc = some f → -2 ^ 31 ≤ f ∧ f < 2 ^ 31)
    (by
      intro c hc f hf
      cases hp : (machine strerror).pending c.pc c.errno with
      | none => rw [step_of_over _ _ _ hp] at hf; exact hc f hf
      | some call =>
        obtain ⟨r, -, hpc, -, -⟩ := exists_step (machine strerror) k c call hp
        rw [hpc] at hf
        rcases failedMounts_next c.pc r f hf with h1 | ⟨g, rfl⟩
        · exact hc f h1
        · exact wrapInt_range g)
    t (start entry e0) (by intro f hf; simp [start, entry, failedMounts] at hf; omega)
  exact inv f h

end Bootstrap

/-! ## Bootstrap: the privileged transition -/

namespace Bootstrap

/-- The routine `go_to_sleep` never returns: the process stays in it and
issues 60 s sleeps only. -/
theorem asleep_forever (strerror : Int → String) (env : Call → Nat → Resp)
    (c : Config BootPC Unit) (hpc : c.pc = .asleep) (n : Nat) :
    (run (machine strerror) (keyed env) n c).pc = .asleep
      ∧ view (run (machine strerror) (keyed env) n c).trace
          = view c.trace ++ List.replicate n idleSleep := by
  induction n with
  | zero => simp [run, hpc]
  | succ n ih =>
    obtain ⟨r, -, hpc1, htr1, -⟩ := exists_step (machine strerror) (keyed env)
      (run (machine strerror) (keyed env) n c) idleSleep (by rw [ih.1]; rfl)
    rw [← run_succ_last] at hpc1 htr1
    refine ⟨by rw [hpc1, ih.1]; rfl, ?_⟩
    rw [htr1, view_append, ih.2, List.replicate_succ', List.append_assoc]
    rfl

/-- The routine `fail`: one diagnostic attempt, then `go_to_sleep` for
ever. -/
theorem fail_sleeps (strerror : Int → String) (env : Call → Nat → Resp)
    (c : Config BootPC Unit) (msg : String) (hpc : c.pc = .pweOpen msg .idle) :
    ∃ m, ∀ n, (run (machine strerror) (keyed env) (m + n) c).pc = .asleep
      ∧ view (run (machine strerror) (keyed env) (m + n) c).trace
          = view c.trace ++ [openConsole] ++ List.replicate n idleSleep := by
  obtain ⟨m, hm, htr⟩ := pwe_returns strerror env c msg .idle hpc
  refine ⟨m, fun n => ?_⟩
  have h := asleep_forever strerror env (run (machine strerror) (keyed env) m c) hm n
  rw [← run_add] at h
  rw [h.2, htr]
  exact ⟨h.1, rfl⟩

/-- The first calls after the loop when `chdir` fails. -/
theorem chdir_fails_prefix (strerror : Int → String) (env : Call → Nat → Resp) (f e0 : Int)
    (h1 : (env chdirCall 0).ret < 0) :
    (run (machine strerror) (keyed env) 2 (start (.unlink f) e0)).pc = .pweOpen chdirMsg .idle
      ∧ view (run (machine strerror) (keyed env) 2 (start (.unlink f) e0)).trace
          = [unlinkCall, chdirCall] := by
  simp only [chdirCall] at h1
  simp [run, step, start, keyed, occ, calls, machine, pending, next, view, notWriteClose,
    unlinkCall, chdirCall, h1]

/-- The first calls after the loop when `chdir` succeeds and `chroot`
fails. -/
theorem chroot_fails_prefix (strerror : Int → String) (env : Call → Nat → Resp) (f e0 : Int)
    (h1 : ¬ (env chdirCall 0).ret < 0) (h2 : (env chrootCall 0).ret < 0) :
    (run (machine strerror) (keyed env) 3 (start (.unlink f) e0)).pc = .pweOpen chrootMsg .idle
      ∧ view (run (machine strerror) (keyed env) 3 (start (.unlink f) e0)).trace
          = [unlinkCall, chdirCall, chrootCall] := by
  simp only [chdirCall, chrootCall] at h1 h2
  simp [run, step, start, keyed, occ, calls, machine, pending, next, view, notWriteClose,
    unlinkCall, chdirCall, chrootCall, h1, h2]

/-- The run from `unlink` to the control point before `execve` when `chdir`
and `chroot` succeed: whatever the serial calls answer, the process gets
to `execve`, and the line it has written to the serial descriptor is
`waitedLine`. -/
theorem reaches_exec (strerror : Int → String) (env : Call → Nat → Resp) (f e0 : Int)
    (h1 : ¬ (env chdirCall 0).ret < 0) (h2 : ¬ (env chrootCall 0).ret < 0) :
    (run (machine strerror) (keyed env) 9 (start (.unlink f) e0)).pc = .execInit
      ∧ calls (run (machine strerror) (keyed env) 9 (start (.unlink f) e0)).trace
          = [unlinkCall, chdirCall, chrootCall, openSerial,
             Call.tcgetattr (env openSerial 0).ret, Call.cfsetospeed "B115200",
             Call.tcsetattr (env openSerial 0).ret "TCSANOW",
             Call.write (env openSerial 0).ret (waitedLine f),
             Call.close (env openSerial 0).ret] := by
  simp only [chdirCall, chrootCall] at h1 h2
  simp [run, step, start, keyed, occ, calls, machine, pending, next,
    unlinkCall, chdirCall, chrootCall, openSerial, h1, h2]

/-- The call of `execve` when `chdir` and `chroot` succeed. -/
theorem exec_step (strerror : Int → String) (env : Call → Nat → Resp) (f e0 : Int)
    (h1 : ¬ (env chdirCall 0).ret < 0) (h2 : ¬ (env chrootCall 0).ret < 0) :
    (run (machine strerror) (keyed env) 10 (start (.unlink f) e0)).pc
        = (if (env execInitCall 0).returns then .pweOpen execMsg .idle else .replaced)
      ∧ view (run (machine strerror) (keyed env) 10 (start (.unlink f) e0)).trace
          = handoffCalls env := by
  obtain ⟨hpc, htr⟩ := reaches_exec strerror env f e0 h1 h2
  obtain ⟨r, hr, hpc1, htr1, -⟩ := exists_step (machine strerror) (keyed env)
    (run (machine strerror) (keyed env) 9 (start (.unlink f) e0)) execInitCall
    (by rw [hpc]; rfl)
  rw [← run_succ_last] at hpc1 htr1
  have hocc : occ execInitCall
      (run (machine strerror) (keyed env) 9 (start (.unlink f) e0)).trace = 0 := by
    rw [occ, htr]
    simp [execInitCall, unlinkCall, chdirCall, chrootCall, openSerial]
  have hr2 : r = env execInitCall 0 := by
    rw [hr]; show env execInitCall (occ execInitCall _) = _
    rw [hocc]
  refine ⟨?_, ?_⟩
  · rw [hpc1, hpc, hr2]; rfl
  · rw [htr1, view_append, view, htr]
    simp [handoffCalls, view, calls, notWriteClose, unlinkCall, chdirCall, chrootCall,
      openSerial, execInitCall]

/-- The four outcomes of the run from the control point after the loop. -/
theorem transition_cases (strerror : Int → String) (env : Call → Nat → Resp) (f e0 : Int) :
    ((env chdirCall 0).ret < 0 →
      SleepsAfter strerror env (start (.unlink f) e0) [unlinkCall, chdirCall, openConsole])
    ∧ (¬ (env chdirCall 0).ret < 0 → (env chrootCall 0).ret < 0 →
      SleepsAfter strerror env (start (.unlink f) e0)
        [unlinkCall, chdirCall, chrootCall, openConsole])
    ∧ (¬ (env chdirCall 0).ret < 0 → ¬ (env chrootCall 0).ret < 0 →
        (env execInitCall 0).returns = true →
      SleepsAfter strerror env (start (.unlink f) e0) (handoffCalls env ++ [openConsole]))
    ∧ (¬ (env chdirCall 0).ret < 0 → ¬ (env chrootCall 0).ret < 0 →
        (env execInitCall 0).returns = false →
      ReplacedAfter strerror env (start (.unlink f) e0) (handoffCalls env)) := by
  unfold SleepsAfter ReplacedAfter
  refine ⟨?_, ?_, ?_, ?_⟩
  · intro h1
    obtain ⟨hpc, htr⟩ := chdir_fails_prefix strerror env f e0 h1
    obtain ⟨m, hm⟩ := fail_sleeps strerror env _ _ hpc
    refine ⟨2 + m, fun n => ?_⟩
    have h := hm n
    rw [← run_add, ← Nat.add_assoc, htr] at h
    exact h
  · intro h1 h2
    obtain ⟨hpc, htr⟩ := chroot_fails_prefix strerror env f e0 h1 h2
    obtain ⟨m, hm⟩ := fail_sleeps strerror env _ _ hpc
    refine ⟨3 + m, fun n => ?_⟩
    have h := hm n
    rw [← run_add, ← Nat.add_assoc, htr] at h
    exact h
  · intro h1 h2 h3
    obtain ⟨hpc, htr⟩ := exec_step strerror env f e0 h1 h2
    rw [h3] at hpc
    obtain ⟨m, hm⟩ := fail_sleeps strerror env _ _ hpc
    refine ⟨10 + m, fun n => ?_⟩
    have h := hm n
    rw [← run_add, ← Nat.add_assoc, htr] at h
    exact h
  · intro h1 h2 h3
    obtain ⟨hpc, htr⟩ := exec_step strerror env f e0 h1 h2
    rw [h3] at hpc
    refine ⟨10, fun n => ?_⟩
    rw [run_add, run_of_over _ _ n _ (by rw [hpc]; rfl)]
    exact ⟨hpc, htr⟩

/-- The configuration in which the loop is left, as a history followed by
the control point before `unlink`. -/
theorem after_loop (strerror : Int → String) (env : Call → Nat → Resp) (e0 : Int) (N : Nat)
    (hfail : ∀ i, i < N → (env mountRootCall i).ret < 0)
    (hok : ¬ (env mountRootCall N).ret < 0) :
    ∃ t tr0 e,
      run (machine strerror) (keyed env) t (start entry e0)
        = withHistory tr0 (start (.unlink (wrapInt N)) e)
      ∧ view tr0 = repeatList N failedRound ++ [mountRootCall] := by
  obtain ⟨t, hpc, htr⟩ := loop_exit strerror env e0 N hfail hok
  refine ⟨t, (run (machine strerror) (keyed env) t (start entry e0)).trace,
    (run (machine strerror) (keyed env) t (start entry e0)).errno, ?_, htr⟩
  rw [← hpc]
  exact withHistory_start _

/-- After the loop, a call that the loop has not issued is answered as its
first issue. -/
theorem shift_after_loop (env : Call → Nat → Resp) (tr0 : List Event) (N : Nat)
    (hview : view tr0 = repeatList N failedRound ++ [mountRootCall])
    (c : Call) (hc : notWriteClose c = true) (hnot : c ∉ failedRound) :
    shift env tr0 c 0 = env c 0 := by
  have h0 : failedRound.count c = 0 := List.count_eq_zero_of_not_mem hnot
  have h1 : [mountRootCall].count c = 0 := by
    apply List.count_eq_zero_of_not_mem
    intro hmem
    apply hnot
    rw [List.mem_singleton.mp hmem]
    simp [failedRound]
  show env c (occ c tr0 + 0) = env c 0
  rw [occ_eq_count_view c hc, hview, List.count_append, count_repeatList, h0, h1]
  simp

theorem sleepsAfter_of_history (strerror : Int → String) (env : Call → Nat → Resp)
    (c0 : Config BootPC Unit) (t : Nat) (tr0 : List Event) (pc : BootPC) (e : Int)
    (shown : List Call)
    (h0 : run (machine strerror) (keyed env) t c0 = withHistory tr0 (start pc e))
    (h : SleepsAfter strerror (shift env tr0) (start pc e) shown) :
    SleepsAfter strerror env c0 (view tr0 ++ shown) := by
  obtain ⟨t0, ht0⟩ := h
  refine ⟨t + t0, fun n => ?_⟩
  rw [Nat.add_assoc, run_add, h0, run_shift]
  refine ⟨(ht0 n).1, ?_⟩
  show view (tr0 ++ _) = _
  rw [view_append, (ht0 n).2, List.append_assoc]

theorem replacedAfter_of_history (strerror : Int → String) (env : Call → Nat → Resp)
    (c0 : Config BootPC Unit) (t : Nat) (tr0 : List Event) (pc : BootPC) (e : Int)
    (shown : List Call)
    (h0 : run (machine strerror) (keyed env) t c0 = withHistory tr0 (start pc e))
    (h : ReplacedAfter strerror (shift env tr0) (start pc e) shown) :
    ReplacedAfter strerror env c0 (view tr0 ++ shown) := by
  obtain ⟨t0, ht0⟩ := h
  refine ⟨t + t0, fun n => ?_⟩
  rw [Nat.add_assoc, run_add, h0, run_shift]
  refine ⟨(ht0 n).1, ?_⟩
  show view (tr0 ++ _) = _
  rw [view_append, (ht0 n).2]

/-- The run from the start of `main` to the control point before `execve`
when the first `N` mounts fail, the next one succeeds and `chdir` and
`chroot` succeed: after the calls of the loop come `unlink`, `chdir`,
`chroot`, the serial report with the line formatted from the counter, and
nothing else. -/
theorem report_after_loop (strerror : Int → String) (env : Call → Nat → Resp) (e0 : Int)
    (N : Nat) (hfail : ∀ i, i < N → (env mountRootCall i).ret < 0)
    (hok : ¬ (env mountRootCall N).ret < 0)
    (h1 : ¬ (env chdirCall 0).ret < 0) (h2 : ¬ (env chrootCall 0).ret < 0) :
    ∃ t tr0, view tr0 = repeatList N failedRound ++ [mountRootCall]
      ∧ (run (machine strerror) (keyed env) t (start entry e0)).pc = .execInit
      ∧ calls (run (machine strerror) (keyed env) t (start entry e0)).trace
          = calls tr0 ++
            [unlinkCall, chdirCall, chrootCall, openSerial,
             Call.tcgetattr (env openSerial 0).ret, Call.cfsetospeed "B115200",
             Call.tcsetattr (env openSerial 0).ret "TCSANOW",
             Call.write (env openSerial 0).ret (waitedLine (wrapInt N)),
             Call.close (env openSerial 0).ret] := by
  obtain ⟨t, tr0, e, h0, hview⟩ := after_loop strerror env e0 N hfail hok
  have e1 := shift_after_loop env tr0 N hview chdirCall rfl (by decide)
  have e2 := shift_after_loop env tr0 N hview chrootCall rfl (by decide)
  have e3 := shift_after_loop env tr0 N hview openSerial rfl (by decide)
  obtain ⟨hpc, htr⟩ := reaches_exec strerror (shift env tr0) (wrapInt N) e
    (by rw [e1]; exact h1) (by rw [e2]; exact h2)
  refine ⟨t + 9, tr0, hview, ?_, ?_⟩
  · rw [run_add, h0, run_shift]
    exact hpc
  · rw [run_add, h0, run_shift]
    show calls (tr0 ++ _) = _
    rw [calls, List.map_append, ← calls, ← calls, htr, e3]

end Bootstrap

/-- C3. When the first `N` mounts fail and the next one succeeds, under
every combination of answers of the system to the calls that follow,
`main` of `src/usbboot.c` does one of four things, shown here with the
`write` and `close` calls left out. After the `N` failed rounds and the
successful mount: if `chdir` fails, `unlink`, `chdir`, one diagnostic
attempt, then 60 s sleeps for ever (no `chroot`, no `execve`); if `chdir`
succeeds and `chroot` fails, `unlink`, `chdir`, `chroot`, one diagnostic
attempt, then sleeps for ever (no `execve`); if both succeed, the serial
report and `execve("/bin/start", {"/bin/start"}, {})`, and then, if
`execve` returns, one diagnostic attempt and sleeps for ever, and if it
does not, the image is replaced and the process issues nothing more. -/
theorem bootstrap_transition (strerror : Int → String) (env : Call → Nat → Resp)
    (e0 : Int) (N : Nat)
    (hfail : ∀ i, i < N → (env Bootstrap.mountRootCall i).ret < 0)
    (hok : ¬ (env Bootstrap.mountRootCall N).ret < 0) :
    ((env Bootstrap.chdirCall 0).ret < 0 →
      Bootstrap.SleepsAfter strerror env (start Bootstrap.entry e0)
        (repeatList N Bootstrap.failedRound ++ [Bootstrap.mountRootCall]
          ++ [Bootstrap.unlinkCall, Bootstrap.chdirCall, Bootstrap.openConsole]))
    ∧ (¬ (env Bootstrap.chdirCall 0).ret < 0 → (env Bootstrap.chrootCall 0).ret < 0 →
      Bootstrap.SleepsAfter strerror env (start Bootstrap.entry e0)
        (repeatList N Bootstrap.failedRound ++ [Bootstrap.mountRootCall]
          ++ [Bootstrap.unlinkCall, Bootstrap.chdirCall, Bootstrap.chrootCall,
              Bootstrap.openConsole]))
    ∧ (¬ (env Bootstrap.chdirCall 0).ret < 0 → ¬ (env Bootstrap.chrootCall 0).ret < 0 →
        (env Bootstrap.execInitCall 0).returns = true →
      Bootstrap.SleepsAfter strerror env (start Bootstrap.entry e0)
        (repeatList N Bootstrap.failedRound ++ [Bootstrap.mountRootCall]
          ++ ([Bootstrap.unlinkCall, Bootstrap.chdirCall, Bootstrap.chrootCall,
               Bootstrap.openSerial, Call.tcgetattr (env Bootstrap.openSerial 0).ret,
               Call.cfsetospeed "B115200",
               Call.tcsetattr (env Bootstrap.openSerial 0).ret "TCSANOW",
               Call.execve "/bin/start" ["/bin/start"] []]
              ++ [Bootstrap.openConsole])))
    ∧ (¬ (env Bootstrap.chdirCall 0).ret < 0 → ¬ (env Bootstrap.chrootCall 0).ret < 0 →
        (env Bootstrap.execInitCall 0).returns = false →
      Bootstrap.ReplacedAfter strerror env (start Bootstrap.entry e0)
        (repeatList N Bootstrap.failedRound ++ [Bootstrap.mountRootCall]
          ++ [Bootstrap.unlinkCall, Bootstrap.chdirCall, Bootstrap.chrootCall,
              Bootstrap.openSerial, Call.tcgetattr (env Bootstrap.openSerial 0).ret,
              Call.cfsetospeed "B115200",
              Call.tcsetattr (env Bootstrap.openSerial 0).ret "TCSANOW",
              Call.execve "/bin/start" ["/bin/start"] []])) := by
  obtain ⟨t, tr0, e, h0, hview⟩ := Bootstrap.after_loop strerror env e0 N hfail hok
  have e1 := Bootstrap.shift_after_loop env tr0 N hview Bootstrap.chdirCall rfl (by decide)
  have e2 := Bootstrap.shift_after_loop env tr0 N hview Bootstrap.chrootCall rfl (by decide)
  have e3 := Bootstrap.shift_after_loop env tr0 N hview Bootstrap.openSerial rfl (by decide)
  have e4 := Bootstrap.shift_after_loop env tr0 N hview Bootstrap.execInitCall rfl (by decide)
  have hh : Bootstrap.handoffCalls (shift env tr0)
      = [Bootstrap.unlinkCall, Bootstrap.chdirCall, Bootstrap.chrootCall,
         Bootstrap.openSerial, Call.tcgetattr (env Bootstrap.openSerial 0).ret,
         Call.cfsetospeed "B115200",
         Call.tcsetattr (env Bootstrap.openSerial 0).ret "TCSANOW",
         Call.execve "/bin/start" ["/bin/start"] []] := by
    unfold Bootstrap.handoffCalls
    rw [e3]
    rfl
  obtain ⟨c1, c2, c3, c4⟩ := Bootstrap.transition_cases strerror (shift env tr0) (wrapInt N) e
  rw [e1] at c1 c2 c3 c4
  rw [e2] at c2 c3 c4
  rw [e4, hh] at c3 c4
  rw [← hview]
  exact ⟨fun a => Bootstrap.sleepsAfter_of_history _ _ _ t tr0 _ e _ h0 (c1 a),
    fun a b => Bootstrap.sleepsAfter_of_history _ _ _ t tr0 _ e _ h0 (c2 a b),
    fun a b c => Bootstrap.sleepsAfter_of_history _ _ _ t tr0 _ e _ h0 (c3 a b c),
    fun a b c => Bootstrap.replacedAfter_of_history _ _ _ t tr0 _ e _ h0 (c4 a b c)⟩

theorem bootstrap_transition_witness :
    ((scripted [Bootstrap.chdirCall] [] Bootstrap.chdirCall 0).ret < 0
      ∧ Bootstrap.SleepsAfter (fun _ => "") (scripted [Bootstrap.chdirCall] [])
          (start Bootstrap.entry 0)
          [Bootstrap.mountRootCall, Bootstrap.unlinkCall, Bootstrap.chdirCall,
           Bootstrap.openConsole])
    ∧ ((scripted [Bootstrap.chrootCall] [] Bootstrap.chrootCall 0).ret < 0
      ∧ Bootstrap.SleepsAfter (fun _ => "") (scripted [Bootstrap.chrootCall] [])
          (start Bootstrap.entry 0)
          [Bootstrap.mountRootCall, Bootstrap.unlinkCall, Bootstrap.chdirCall,
           Bootstrap.chrootCall, Bootstrap.openConsole])
    ∧ ((∀ i, i < 1 → (failingFirst 1 Bootstrap.mountRootCall i).ret < 0)
      ∧ (failingFirst 1 Bootstrap.execInitCall 0).returns = true
      ∧ Bootstrap.SleepsAfter (fun _ => "") (failingFirst 1) (start Bootstrap.entry 0)
          [Bootstrap.mountRootCall, Bootstrap.openConsole, Bootstrap.retrySleepCall,
           Bootstrap.mountRootCall, Bootstrap.unlinkCall, Bootstrap.chdirCall,
           Bootstrap.chrootCall, Bootstrap.openSerial, Call.tcgetattr 0,
           Call.cfsetospeed "B115200", Call.tcsetattr 0 "TCSANOW",
           Call.execve "/bin/start" ["/bin/start"] [], Bootstrap.openConsole])
    ∧ ((scripted [] [Bootstrap.execInitCall] Bootstrap.execInitCall 0).returns = false
      ∧ Bootstrap.ReplacedAfter (fun _ => "") (scripted [] [Bootstrap.execInitCall])
          (start Bootstrap.entry 0)
          [Bootstrap.mountRootCall, Bootstrap.unlinkCall, Bootstrap.chdirCall,
           Bootstrap.chrootCall, Bootstrap.openSerial, Call.tcgetattr 0,
           Call.cfsetospeed "B115200", Call.tcsetattr 0 "TCSANOW",
           Call.execve "/bin/start" ["/bin/start"] []]) := by
  have h1 : ∀ i, i < 1 → (failingFirst 1 Bootstrap.mountRootCall i).ret < 0 := by
    intro i hi; simp [failingFirst, hi]
  exact ⟨⟨by decide,
      (bootstrap_transition (fun _ => "") (scripted [Bootstrap.chdirCall] []) 0 0
        (fun i hi => absurd hi (Nat.not_lt_zero i)) (by decide)).1 (by decide)⟩,
    ⟨by decide,
      (bootstrap_transition (fun _ => "") (scripted [Bootstrap.chrootCall] []) 0 0
        (fun i hi => absurd hi (Nat.not_lt_zero i)) (by decide)).2.1 (by decide) (by decide)⟩,
    ⟨h1, by decide,
      (bootstrap_transition (fun _ => "") (failingFirst 1) 0 1 h1 (by decide)).2.2.1
        (by decide) (by decide) (by decide)⟩,
    ⟨by decide,
      (bootstrap_transition (fun _ => "") (scripted [] [Bootstrap.execInitCall]) 0 0
        (fun i hi => absurd hi (Nat.not_lt_zero i)) (by decide)).2.2.2
        (by decide) (by decide) (by decide)⟩⟩

/-! ## Bootstrap: statements about the mount-retry loop -/

/-- C2, as amended. If the first `N` mounts of the root fail and the next
one succeeds, `main` of `src/usbboot.c` reaches the call of `unlink` having
issued, console `write` and `close` calls aside, exactly `N` rounds of
(mount, diagnostic attempt, 100 ms sleep) followed by the successful mount:
`N + 1` mounts, `N` diagnostic attempts, `N` sleeps, and no `unlink`,
`chdir` or `chroot` before. The counter `failed_mounts` then holds `N` as a
C `int`, which is `N` itself whenever `N < 2 ^ 31`. If every mount fails,
the process stays inside the loop at all times and always has a next call
to issue. -/
theorem bootstrap_mount_retry (strerror : Int → String) (env : Call → Nat → Resp) (e0 : Int) :
    (∀ N : Nat, (∀ i, i < N → (env Bootstrap.mountRootCall i).ret < 0) →
      ¬ (env Bootstrap.mountRootCall N).ret < 0 →
      ∃ t,
        (run (Bootstrap.machine strerror) (keyed env) t (start Bootstrap.entry e0)).pc
            = BootPC.unlink (wrapInt N)
        ∧ (N < 2 ^ 31 →
            (run (Bootstrap.machine strerror) (keyed env) t (start Bootstrap.entry e0)).pc
              = BootPC.unlink N)
        ∧ Bootstrap.view
              (run (Bootstrap.machine strerror) (keyed env) t (start Bootstrap.entry e0)).trace
            = repeatList N Bootstrap.failedRound ++ [Bootstrap.mountRootCall]
        ∧ occ Bootstrap.mountRootCall
              (run (Bootstrap.machine strerror) (keyed env) t (start Bootstrap.entry e0)).trace
            = N + 1
        ∧ occ Bootstrap.openConsole
              (run (Bootstrap.machine strerror) (keyed env) t (start Bootstrap.entry e0)).trace
            = N
        ∧ occ Bootstrap.retrySleepCall
              (run (Bootstrap.machine strerror) (keyed env) t (start Bootstrap.entry e0)).trace
            = N
        ∧ occ Bootstrap.unlinkCall
              (run (Bootstrap.machine strerror) (keyed env) t (start Bootstrap.entry e0)).trace
            = 0
        ∧ occ Bootstrap.chdirCall
              (run (Bootstrap.machine strerror) (keyed env) t (start Bootstrap.entry e0)).trace
            = 0
        ∧ occ Bootstrap.chrootCall
              (run (Bootstrap.machine strerror) (keyed env) t (start Bootstrap.entry e0)).trace
            = 0)
    ∧ ((∀ i, (env Bootstrap.mountRootCall i).ret < 0) →
        ∀ t,
          Bootstrap.inMountLoop
              (run (Bootstrap.machine strerror) (keyed env) t (start Bootstrap.entry e0)).pc
            = true
          ∧ (Bootstrap.machine strerror).pending
              (run (Bootstrap.machine strerror) (keyed env) t (start Bootstrap.entry e0)).pc
              (run (Bootstrap.machine strerror) (keyed env) t (start Bootstrap.entry e0)).errno
            ≠ none) := by
  constructor
  · intro N hfail hok
    obtain ⟨t, hpc, htr⟩ := Bootstrap.loop_exit strerror env e0 N hfail hok
    have hocc : ∀ c, Bootstrap.notWriteClose c = true →
        occ c (run (Bootstrap.machine strerror) (keyed env) t (start Bootstrap.entry e0)).trace
          = N * Bootstrap.failedRound.count c + [Bootstrap.mountRootCall].count c := by
      intro c hc
      rw [Bootstrap.occ_eq_count_view c hc, htr, List.count_append, Bootstrap.count_repeatList]
    refine ⟨t, hpc, ?_, htr, ?_, ?_, ?_, ?_, ?_, ?_⟩
    · intro hN
      rw [hpc, wrapInt_of_int_range]
      · have : (0 : Int) ≤ (N : Int) := Int.ofNat_nonneg N
        omega
      · exact_mod_cast hN
    · rw [hocc Bootstrap.mountRootCall rfl]
      simp [Bootstrap.failedRound, Bootstrap.mountRootCall, Bootstrap.openConsole,
        Bootstrap.retrySleepCall]
    · rw [hocc Bootstrap.openConsole rfl]
      simp [Bootstrap.failedRound, Bootstrap.mountRootCall, Bootstrap.openConsole,
        Bootstrap.retrySleepCall]
    · rw [hocc Bootstrap.retrySleepCall rfl]
      simp [Bootstrap.failedRound, Bootstrap.mountRootCall, Bootstrap.openConsole,
        Bootstrap.retrySleepCall]
    · rw [hocc Bootstrap.unlinkCall rfl]
      simp [Bootstrap.failedRound, Bootstrap.mountRootCall, Bootstrap.openConsole,
        Bootstrap.retrySleepCall, Bootstrap.unlinkCall]
    · rw [hocc Bootstrap.chdirCall rfl]
      simp [Bootstrap.failedRound, Bootstrap.mountRootCall, Bootstrap.openConsole,
        Bootstrap.retrySleepCall, Bootstrap.chdirCall]
    · rw [hocc Bootstrap.chrootCall rfl]
      simp [Bootstrap.failedRound, Bootstrap.mountRootCall, Bootstrap.openConsole,
        Bootstrap.retrySleepCall, Bootstrap.chrootCall]
  · intro hfail t
    have hin := Bootstrap.stays_in_loop strerror env e0 hfail t
    refine ⟨hin, ?_⟩
    show Bootstrap.pending strerror _ _ ≠ none
    cases hpc : (run (Bootstrap.machine strerror) (keyed env) t (start Bootstrap.entry e0)).pc <;>
      simp_all [Bootstrap.pending, Bootstrap.inMountLoop]

theorem bootstrap_mount_retry_witness :
    ((∀ i, i < 2 → (failingFirst 2 Bootstrap.mountRootCall i).ret < 0)
      ∧ ¬ (failingFirst 2 Bootstrap.mountRootCall 2).ret < 0
      ∧ ∃ t,
        (run (Bootstrap.machine (fun _ => "")) (keyed (failingFirst 2)) t
            (start Bootstrap.entry 0)).pc = BootPC.unlink 2
        ∧ occ Bootstrap.mountRootCall
            (run (Bootstrap.machine (fun _ => "")) (keyed (failingFirst 2)) t
              (start Bootstrap.entry 0)).trace = 3)
    ∧ ((∀ i, (failingForever Bootstrap.mountRootCall i).ret < 0)
      ∧ ∀ t,
        Bootstrap.inMountLoop
          (run (Bootstrap.machine (fun _ => "")) (keyed failingForever) t
            (start Bootstrap.entry 0)).pc = true) := by
  have h1 : ∀ i, i < 2 → (failingFirst 2 Bootstrap.mountRootCall i).ret < 0 := by
    intro i hi; simp [failingFirst, hi]
  have h2 : ¬ (failingFirst 2 Bootstrap.mountRootCall 2).ret < 0 := by
    simp [failingFirst]
  have h3 : ∀ i, (failingForever Bootstrap.mountRootCall i).ret < 0 := by
    intro i; simp [failingForever]
  refine ⟨⟨h1, h2, ?_⟩, h3, ?_⟩
  · obtain ⟨t, -, hpc, -, hocc, -⟩ :=
      (bootstrap_mount_retry (fun _ => "") (failingFirst 2) 0).1 2 h1 h2
    exact ⟨t, hpc (by norm_num), hocc⟩
  · intro t
    exact ((bootstrap_mount_retry (fun _ => "") failingForever 0).2 h3 t).1

/-- C2 as stated fails for `N = 2 ^ 31`: the first `2 ^ 31` mounts fail and
the next one succeeds, yet `failed_mounts`, a C `int`, never holds
`2 ^ 31`; when `unlink` is reached it holds `-2 ^ 31`. -/
theorem mount_counter_overflow :
    (∀ i, i < 2 ^ 31 → (failingFirst (2 ^ 31) Bootstrap.mountRootCall i).ret < 0)
    ∧ ¬ (failingFirst (2 ^ 31) Bootstrap.mountRootCall (2 ^ 31)).ret < 0
    ∧ (∃ t,
        (run (Bootstrap.machine (fun _ => "")) (keyed (failingFirst (2 ^ 31))) t
            (start Bootstrap.entry 0)).pc = BootPC.unlink (-2 ^ 31))
    ∧ ¬ ∃ t,
        Bootstrap.failedMounts
          (run (Bootstrap.machine (fun _ => "")) (keyed (failingFirst (2 ^ 31))) t
            (start Bootstrap.entry 0)).pc = some (2 ^ 31) := by
  have h1 : ∀ i, i < 2 ^ 31 → (failingFirst (2 ^ 31) Bootstrap.mountRootCall i).ret < 0 := by
    intro i hi
    have hi2 : i < 2147483648 := by simpa using hi
    simp [failingFirst, hi2]
  have h2 : ¬ (failingFirst (2 ^ 31) Bootstrap.mountRootCall (2 ^ 31)).ret < 0 := by
    simp [failingFirst]
  refine ⟨h1, h2, ?_, ?_⟩
  · obtain ⟨t, hpc, -⟩ := Bootstrap.loop_exit (fun _ => "") (failingFirst (2 ^ 31)) 0 (2 ^ 31) h1 h2
    refine ⟨t, ?_⟩
    rw [hpc]
    simp [wrapInt]
  · rintro ⟨t, ht⟩
    have := Bootstrap.failedMounts_is_int (fun _ => "") (keyed (failingFirst (2 ^ 31))) 0 t _ ht
    omega

/-! ## Bootstrap: the report on the serial line -/

/-- The `%d` conversion of a C `int` takes at most 11 characters. -/
theorem fmtInt_length (v : Int) (h0 : -2 ^ 31 ≤ v) (h1 : v < 2 ^ 31) :
    (fmtInt v).length ≤ 11 := by
  unfold fmtInt
  cases v with
  | ofNat m =>
    show (Nat.repr m).length ≤ 11
    have : m < 10 ^ 10 := by
      have : (m : Int) < 2 ^ 31 := h1
      omega
    exact le_trans (Nat.repr_length m 10 (by norm_num) this) (by norm_num)
  | negSucc m =>
    show ("-" ++ Nat.repr (m + 1)).length ≤ 11
    have : m + 1 < 10 ^ 10 := by
      have h : -2 ^ 31 ≤ -((m : Int) + 1) := h0
      omega
    have := Nat.repr_length (m + 1) 10 (by norm_num) this
    rw [String.length_append]
    have h : "-".length = 1 := rfl
    omega

/-- The report always fits `msgbuf`, terminating NUL included. -/
theorem Bootstrap.waitedLine_fits (f : Int) :
    (Bootstrap.waitedLine f).length + 1 ≤ Bootstrap.msgbufSize := by
  have h := fmtInt_length (wrapInt (f * Bootstrap.MOUNT_RETRY_MS))
    (wrapInt_range _).1 (wrapInt_range _).2
  unfold Bootstrap.waitedLine Bootstrap.msgbufSize
  rw [String.length_append, String.length_append]
  have h1 : "Waited about ".length = 13 := rfl
  have h2 : " milliseconds for the root to become available\n".length = 47 := rfl
  omega

/-- C10, as amended. If the first `N` mounts fail and the next one
succeeds, where `N * 100` is a value of the C type `int` (`N ≤ 21474836`),
and `chdir` and `chroot` succeed, then `main` of `src/usbboot.c` reaches
the call of `execve` having issued, after the calls of the loop, exactly
`unlink`, `chdir`, `chroot`, the open and configuration of the serial
device, the write of `"Waited about <N * 100> milliseconds for the root to
become available\n"` to the serial descriptor, and its close. The formatted
line fits the 100-byte `msgbuf` for every value of the counter, and
whatever the serial calls answer, the next call is the `execve` of
`/bin/start`. -/
theorem bootstrap_wait_report (strerror : Int → String) (env : Call → Nat → Resp) (e0 : Int)
    (N : Nat) (hN : N * 100 < 2 ^ 31)
    (hfail : ∀ i, i < N → (env Bootstrap.mountRootCall i).ret < 0)
    (hok : ¬ (env Bootstrap.mountRootCall N).ret < 0)
    (h1 : ¬ (env Bootstrap.chdirCall 0).ret < 0)
    (h2 : ¬ (env Bootstrap.chrootCall 0).ret < 0) :
    (∃ t tr0,
      Bootstrap.view tr0 = repeatList N Bootstrap.failedRound ++ [Bootstrap.mountRootCall]
      ∧ calls (run (Bootstrap.machine strerror) (keyed env) t (start Bootstrap.entry e0)).trace
          = calls tr0 ++
            [Bootstrap.unlinkCall, Bootstrap.chdirCall, Bootstrap.chrootCall,
             Bootstrap.openSerial,
             Call.tcgetattr (env Bootstrap.openSerial 0).ret, Call.cfsetospeed "B115200",
             Call.tcsetattr (env Bootstrap.openSerial 0).ret "TCSANOW",
             Call.write (env Bootstrap.openSerial 0).ret
               ("Waited about " ++ fmtInt ((N : Int) * 100)
                 ++ " milliseconds for the root to become available\n"),
             Call.close (env Bootstrap.openSerial 0).ret]
      ∧ (Bootstrap.machine strerror).pending
            (run (Bootstrap.machine strerror) (keyed env) t (start Bootstrap.entry e0)).pc
            (run (Bootstrap.machine strerror) (keyed env) t (start Bootstrap.entry e0)).errno
          = some (Call.execve "/bin/start" ["/bin/start"] []))
    ∧ (∀ f : Int, (Bootstrap.waitedLine f).length + 1 ≤ Bootstrap.msgbufSize) := by
  obtain ⟨t, tr0, hview, hpc, htr⟩ :=
    Bootstrap.report_after_loop strerror env e0 N hfail hok h1 h2
  have hNat : (0 : Int) ≤ (N : Int) := Int.ofNat_nonneg N
  have hN2 : ((N * 100 : Nat) : Int) < 2 ^ 31 := by exact_mod_cast hN
  have hN3 : (N : Int) * 100 < 2 ^ 31 := by simpa using hN2
  have hline : Bootstrap.waitedLine (wrapInt N)
      = "Waited about " ++ fmtInt ((N : Int) * 100)
          ++ " milliseconds for the root to become available\n" := by
    unfold Bootstrap.waitedLine Bootstrap.MOUNT_RETRY_MS
    rw [wrapInt_of_int_range (N : Int) (by omega) (by omega),
      wrapInt_of_int_range ((N : Int) * 100) (by omega) hN3]
  refine ⟨⟨t, tr0, hview, ?_, ?_⟩, Bootstrap.waitedLine_fits⟩
  · rw [htr, hline]
  · rw [hpc]; rfl

theorem bootstrap_wait_report_witness :
    2 * 100 < 2 ^ 31
    ∧ (∀ i, i < 2 → (failingFirst 2 Bootstrap.mountRootCall i).ret < 0)
    ∧ ¬ (failingFirst 2 Bootstrap.mountRootCall 2).ret < 0
    ∧ ¬ (failingFirst 2 Bootstrap.chdirCall 0).ret < 0
    ∧ ¬ (failingFirst 2 Bootstrap.chrootCall 0).ret < 0
    ∧ ∃ t tr0,
      Bootstrap.view tr0 = repeatList 2 Bootstrap.failedRound ++ [Bootstrap.mountRootCall]
      ∧ calls (run (Bootstrap.machine (fun _ => "")) (keyed (failingFirst 2)) t
            (start Bootstrap.entry 0)).trace
          = calls tr0 ++
            [Bootstrap.unlinkCall, Bootstrap.chdirCall, Bootstrap.chrootCall,
             Bootstrap.openSerial, Call.tcgetattr 0, Call.cfsetospeed "B115200",
             Call.tcsetattr 0 "TCSANOW",
             Call.write 0 "Waited about 200 milliseconds for the root to become available\n",
             Call.close 0] := by
  have hf : ∀ i, i < 2 → (failingFirst 2 Bootstrap.mountRootCall i).ret < 0 := by
    intro i hi; simp [failingFirst, hi]
  refine ⟨by norm_num, hf, by decide, by decide, by decide, ?_⟩
  obtain ⟨t, tr0, hview, htr, -⟩ :=
    (bootstrap_wait_report (fun _ => "") (failingFirst 2) 0 2 (by norm_num) hf
      (by decide) (by decide) (by decide)).1
  exact ⟨t, tr0, hview, htr⟩

/-- C10 as stated fails for `N = 21474837`, a value the C `int`
`failed_mounts` can hold: after 21474837 failed mounts and a successful
one, `N * 100` does not fit a C `int`, and the line written to the serial
device reports -2147483596 milliseconds instead of 2147483700. -/
theorem wait_report_overflow :
    (21474837 : Int) < 2 ^ 31
    ∧ (∀ i, i < 21474837 → (failingFirst 21474837 Bootstrap.mountRootCall i).ret < 0)
    ∧ ¬ (failingFirst 21474837 Bootstrap.mountRootCall 21474837).ret < 0
    ∧ (∃ t tr0,
      Bootstrap.view tr0
          = repeatList 21474837 Bootstrap.failedRound ++ [Bootstrap.mountRootCall]
      ∧ calls (run (Bootstrap.machine (fun _ => "")) (keyed (failingFirst 21474837)) t
            (start Bootstrap.entry 0)).trace
          = calls tr0 ++
            [Bootstrap.unlinkCall, Bootstrap.chdirCall, Bootstrap.chrootCall,
             Bootstrap.openSerial, Call.tcgetattr 0, Call.cfsetospeed "B115200",
             Call.tcsetattr 0 "TCSANOW",
             Call.write 0
               "Waited about -2147483596 milliseconds for the root to become available\n",
             Call.close 0])
    ∧ "Waited about -2147483596 milliseconds for the root to become available\n"
        ≠ "Waited about " ++ fmtInt (21474837 * 100)
            ++ " milliseconds for the root to become available\n" := by
  have hf : ∀ i, i < 21474837 →
      (failingFirst 21474837 Bootstrap.mountRootCall i).ret < 0 := by
    intro i hi; simp [failingFirst, hi]
  refine ⟨by norm_num, hf, by decide, ?_, by decide⟩
  obtain ⟨t, tr0, hview, -, htr⟩ :=
    Bootstrap.report_after_loop (fun _ => "") (failingFirst 21474837) 0 21474837 hf
      (by decide) (by decide) (by decide)
  refine ⟨t, tr0, hview, ?_⟩
  rw [htr]
  have hs : (failingFirst 21474837 Bootstrap.openSerial 0).ret = 0 := by decide
  have hl : Bootstrap.waitedLine (wrapInt ((21474837 : Nat) : Int))
      = "Waited about -2147483596 milliseconds for the root to become available\n" := by
    decide
  rw [hs, hl]

/-! ## Init Supervisor: set-up, spawn and failure -/

namespace Init

/-- The routine `go_to_sleep` of `src/start.c` never returns: the process
stays in it and issues 60 s sleeps only. -/
theorem idle_forever (strerror : Int → String) (argv : List String)
    (env : Call → Nat → Resp) (c : Config InitPC Unit) (hpc : c.pc = .asleep) (n : Nat) :
    (run (machine strerror argv) (keyed env) n c).pc = .asleep
      ∧ calls (run (machine strerror argv) (keyed env) n c).trace
          = calls c.trace ++ List.replicate n idleSleep := by
  induction n with
  | zero => simp [run, hpc]
  | succ n ih =>
    obtain ⟨r, -, hpc1, htr1, -⟩ := exists_step (machine strerror argv) (keyed env)
      (run (machine strerror argv) (keyed env) n c) idleSleep (by rw [ih.1]; rfl)
    rw [← run_succ_last] at hpc1 htr1
    refine ⟨by rw [hpc1, ih.1]; rfl, ?_⟩
    rw [htr1, calls, List.map_append, ← calls, ih.2, List.replicate_succ', List.append_assoc]
    rfl

/-- The routine `fail` of `src/start.c`: the calls of one diagnostic, then
`go_to_sleep` for ever. -/
theorem fail_then_idle (strerror : Int → String) (argv : List String)
    (env : Call → Nat → Resp) (c : Config InitPC Unit) (msg : String)
    (hpc : c.pc = .failOpen msg) :
    ∃ m diag, IsDiagnostic strerror msg (env openConsole (occ openConsole c.trace)) diag
      ∧ ∀ n, (run (machine strerror argv) (keyed env) (m + n) c).pc = .asleep
        ∧ calls (run (machine strerror argv) (keyed env) (m + n) c).trace
            = calls c.trace ++ diag ++ List.replicate n idleSleep := by
  have finish : ∀ (m : Nat) (diag : List Call),
      (run (machine strerror argv) (keyed env) m c).pc = .asleep →
      calls (run (machine strerror argv) (keyed env) m c).trace = calls c.trace ++ diag →
      ∀ n, (run (machine strerror argv) (keyed env) (m + n) c).pc = .asleep
        ∧ calls (run (machine strerror argv) (keyed env) (m + n) c).trace
            = calls c.trace ++ diag ++ List.replicate n idleSleep := by
    intro m diag h1 h2 n
    have h := idle_forever strerror argv env _ h1 n
    rw [← run_add, h2] at h
    exact h
  obtain ⟨r1, hr1, hpc1, htr1, he1⟩ :=
    exists_step (machine strerror argv) (keyed env) c openConsole (by rw [hpc]; rfl)
  have hr1' : r1 = env openConsole (occ openConsole c.trace) := hr1
  rw [← hr1']
  rw [hpc] at hpc1 he1
  by_cases h1 : r1.ret = -1
  · refine ⟨1, [openConsole], by simp [IsDiagnostic, h1], finish 1 _ ?_ ?_⟩
    · show (step _ _ c).pc = _
      rw [hpc1]; simp [machine, next, h1]
    · show calls (step _ _ c).trace = _
      rw [htr1]; simp [calls]
  · have hpc1' : (step (machine strerror argv) (keyed env) c).pc = .failWrite msg r1.ret := by
      rw [hpc1]; simp [machine, next, h1]
    have he1' : (step (machine strerror argv) (keyed env) c).errno = r1.errno := by
      rw [he1]; rfl
    obtain ⟨r2, -, hpc2, htr2, -⟩ :=
      exists_step (machine strerror argv) (keyed env)
        (step (machine strerror argv) (keyed env) c)
        (Call.write r1.ret (writtenFromBuffer 256 (failText strerror msg r1.errno)))
        (by rw [hpc1', he1']; rfl)
    rw [hpc1'] at hpc2
    by_cases h2 : r2.ret = -1
    · have hpc2' : (step (machine strerror argv) (keyed env)
          (step (machine strerror argv) (keyed env) c)).pc = .failClose r1.ret := by
        rw [hpc2]; simp [machine, next, h2]
      obtain ⟨r3, -, hpc3, htr3, -⟩ :=
        exists_step (machine strerror argv) (keyed env)
          (step (machine strerror argv) (keyed env)
            (step (machine strerror argv) (keyed env) c)) (Call.close r1.ret)
          (by rw [hpc2']; rfl)
      rw [hpc2'] at hpc3
      refine ⟨3, [openConsole,
          Call.write r1.ret (writtenFromBuffer 256 (failText strerror msg r1.errno)),
          Call.close r1.ret], ?_, finish 3 _ ?_ ?_⟩
      · simp [IsDiagnostic, h1]
      · show (step _ _ (step _ _ (step _ _ c))).pc = _
        rw [hpc3]; rfl
      · show calls (step _ _ (step _ _ (step _ _ c))).trace = _
        rw [htr3, htr2, htr1]; simp [calls]
    · have hpc2' : (step (machine strerror argv) (keyed env)
          (step (machine strerror argv) (keyed env) c)).pc = .failNewline r1.ret := by
        rw [hpc2]; simp [machine, next, h2]
      obtain ⟨r3, -, hpc3, htr3, -⟩ :=
        exists_step (machine strerror argv) (keyed env)
          (step (machine strerror argv) (keyed env)
            (step (machine strerror argv) (keyed env) c)) (Call.write r1.ret "\n")
          (by rw [hpc2']; rfl)
      rw [hpc2'] at hpc3
      have hpc3' : (step (machine strerror argv) (keyed env)
          (step (machine strerror argv) (keyed env)
            (step (machine strerror argv) (keyed env) c))).pc = .failClose r1.ret := by
        rw [hpc3]; rfl
      obtain ⟨r4, -, hpc4, htr4, -⟩ :=
        exists_step (machine strerror argv) (keyed env)
          (step (machine strerror argv) (keyed env)
            (step (machine strerror argv) (keyed env)
              (step (machine strerror argv) (keyed env) c))) (Call.close r1.ret)
          (by rw [hpc3']; rfl)
      rw [hpc3'] at hpc4
      refine ⟨4, [openConsole,
          Call.write r1.ret (writtenFromBuffer 256 (failText strerror msg r1.errno)),
          Call.write r1.ret "\n",
          Call.close r1.ret], ?_, finish 4 _ ?_ ?_⟩
      · simp [IsDiagnostic, h1]
      · show (step _ _ (step _ _ (step _ _ (step _ _ c)))).pc = _
        rw [hpc4]; rfl
      · show calls (step _ _ (step _ _ (step _ _ (step _ _ c)))).trace = _
        rw [htr4, htr3, htr2, htr1]; simp [calls]

/-- A run of `fail` issues no `fork`. -/
theorem fork_not_in_diagnostic (strerror : Int → String) (msg : String) (r : Resp)
    (diag : List Call) (h : IsDiagnostic strerror msg r diag) : Call.fork ∉ diag := by
  unfold IsDiagnostic at h
  split_ifs at h
  · subst h; simp [openConsole]
  · rcases h with h | h <;> subst h <;> simp [openConsole]

/-- From the control points past the spawn step no `fork` or `execve` is
issued. -/
theorem pastSpawn_keeps (strerror : Int → String) (argv : List String) (k : Kernel Unit)
    (c : Config InitPC Unit) (hc : pastSpawn c.pc = true) (n : Nat) :
    pastSpawn (run (machine strerror argv) k n c).pc = true
      ∧ spawnView (run (machine strerror argv) k n c).trace = spawnView c.trace := by
  apply run_invariant (machine strerror argv) k
    (fun d => pastSpawn d.pc = true ∧ spawnView d.trace = spawnView c.trace)
  · intro d hd
    cases hp : (machine strerror argv).pending d.pc d.errno with
    | none => rw [step_of_over _ _ _ hp]; exact hd
    | some call =>
      obtain ⟨r, -, hpc, htr, -⟩ := exists_step (machine strerror argv) k d call hp
      rw [hpc, htr]
      have hview : ∀ l : List Event, spawnView (l ++ [(call, r)])
          = spawnView l ++ spawnView [(call, r)] := by
        intro l; simp [spawnView, calls]
      rw [hview, hd.2]
      have hd1 := hd.1
      cases hdpc : d.pc with
      | failOpen msg =>
        rw [hdpc] at hp
        simp only [machine, pending, Option.some.injEq] at hp
        subst hp
        simp only [machine, next]
        split_ifs <;> simp [pastSpawn, spawnView, calls, openConsole]
      | failWrite msg fd =>
        rw [hdpc] at hp
        simp only [machine, pending, Option.some.injEq] at hp
        subst hp
        simp only [machine, next]
        split_ifs <;> simp [pastSpawn, spawnView, calls]
      | failNewline fd =>
        rw [hdpc] at hp
        simp only [machine, pending, Option.some.injEq] at hp
        subst hp
        simp [machine, next, pastSpawn, spawnView, calls]
      | failClose fd =>
        rw [hdpc] at hp
        simp only [machine, pending, Option.some.injEq] at hp
        subst hp
        simp [machine, next, pastSpawn, spawnView, calls]
      | asleep =>
        rw [hdpc] at hp
        simp only [machine, pending, Option.some.injEq] at hp
        subst hp
        simp [machine, next, pastSpawn, spawnView, calls, idleSleep]
      | replaced =>
        rw [hdpc] at hp
        simp [machine, pending] at hp
      | _ => rw [hdpc] at hd1; simp [pastSpawn] at hd1
  · exact ⟨hc, rfl⟩

/-- When a set-up step fails, the process has issued the set-up calls up to
the failing one and enters `fail` with the message of that step. -/
theorem setup_fails (strerror : Int → String) (argv : List String)
    (env : Call → Nat → Resp) (e0 : Int) (k : Nat) (msg : String)
    (h : setupFailure env = some (k, msg)) :
    (run (machine strerror argv) (keyed env) k (start entry e0)).pc = .failOpen msg
      ∧ calls (run (machine strerror argv) (keyed env) k (start entry e0)).trace
          = setupCalls.take k := by
  unfold setupFailure at h
  simp only [sigactionCall, openTtyCall, TTY] at h
  split_ifs at h with h1 h2 h3 h4 h5 <;>
    simp only [Option.some.injEq, Prod.mk.injEq, reduceCtorEq] at h <;>
    obtain ⟨rfl, rfl⟩ := h <;>
    simp [run, step, start, keyed, occ, calls, machine, pending, next, entry, setupCalls,
      sigactionCall, openTtyCall, TTY, *]

/-- When the set-up succeeds, after its eight calls the process is at the
`fork` of the branch selected by the argument vector. -/
theorem setup_succeeds (strerror : Int → String) (argv : List String)
    (env : Call → Nat → Resp) (e0 : Int) (h : setupFailure env = none) :
    (run (machine strerror argv) (keyed env) 8 (start entry e0)).pc
        = (if wantsIshell argv then .forkIshell else .forkInitscript)
      ∧ calls (run (machine strerror argv) (keyed env) 8 (start entry e0)).trace
          = setupCalls := by
  unfold setupFailure at h
  simp only [sigactionCall, openTtyCall, TTY] at h
  split_ifs at h with h1 h2 h3 h4 h5
  simp only [not_not] at h3 h4 h5
  simp [run, step, start, keyed, occ, calls, machine, pending, next, entry, setupCalls,
    sigactionCall, openTtyCall, TTY, *]

/-- The `fork`: in the process where it returns 0 the next control point
is the `execve` of the selected branch; where it returns anything else,
`go_to_sleep`. -/
theorem fork_step (strerror : Int → String) (argv : List String)
    (env : Call → Nat → Resp) (e0 : Int) (h : setupFailure env = none) :
    (run (machine strerror argv) (keyed env) 9 (start entry e0)).pc
        = (if (env Call.fork 0).ret = 0 then
            (if wantsIshell argv then .execIshell else .execInitscript)
           else .asleep)
      ∧ calls (run (machine strerror argv) (keyed env) 9 (start entry e0)).trace
          = setupCalls ++ [Call.fork] := by
  obtain ⟨hpc, htr⟩ := setup_succeeds strerror argv env e0 h
  obtain ⟨r, hr, hpc1, htr1, -⟩ := exists_step (machine strerror argv) (keyed env)
    (run (machine strerror argv) (keyed env) 8 (start entry e0)) Call.fork
    (by rw [hpc]; split_ifs <;> rfl)
  rw [← run_succ_last] at hpc1 htr1
  have hocc : occ Call.fork
      (run (machine strerror argv) (keyed env) 8 (start entry e0)).trace = 0 := by
    rw [occ, htr]; simp [setupCalls, sigactionCall, openTtyCall]
  have hr2 : r = env Call.fork 0 := by
    rw [hr]; show env Call.fork (occ Call.fork _) = _
    rw [hocc]
  refine ⟨?_, ?_⟩
  · rw [hpc1, hpc, ← hr2]
    cases wantsIshell argv <;> simp [machine, next]
  · rw [htr1, calls, List.map_append, ← calls, htr]; rfl

/-- The `execve` in the child: it is the call selected by the argument
vector, and after it the process is past the spawn step. -/
theorem child_exec_step (strerror : Int → String) (argv : List String)
    (env : Call → Nat → Resp) (e0 : Int) (h : setupFailure env = none)
    (hchild : (env Call.fork 0).ret = 0) :
    (run (machine strerror argv) (keyed env) 10 (start entry e0)).pc
        = (if (env (spawnCall argv) 0).returns then
            (if (env (spawnCall argv) 0).ret = -1 then
              .failOpen (if wantsIshell argv then ishellMsg else initscriptMsg)
             else .asleep)
           else .replaced)
      ∧ calls (run (machine strerror argv) (keyed env) 10 (start entry e0)).trace
          = setupCalls ++ [Call.fork, spawnCall argv] := by
  obtain ⟨hpc, htr⟩ := fork_step strerror argv env e0 h
  rw [hchild] at hpc
  simp only [if_true] at hpc
  obtain ⟨r, hr, hpc1, htr1, -⟩ := exists_step (machine strerror argv) (keyed env)
    (run (machine strerror argv) (keyed env) 9 (start entry e0)) (spawnCall argv)
    (by rw [hpc]; unfold spawnCall; split_ifs <;> rfl)
  rw [← run_succ_last] at hpc1 htr1
  have hocc : occ (spawnCall argv)
      (run (machine strerror argv) (keyed env) 9 (start entry e0)).trace = 0 := by
    rw [occ, htr]; unfold spawnCall
    split_ifs <;>
      simp [setupCalls, sigactionCall, openTtyCall, execIshellCall, execInitscriptCall]
  have hr2 : r = env (spawnCall argv) 0 := by
    rw [hr]; show env (spawnCall argv) (occ (spawnCall argv) _) = _
    rw [hocc]
  refine ⟨?_, ?_⟩
  · rw [hpc1, hpc, ← hr2]
    cases wantsIshell argv <;> simp [machine, next]
  · rw [htr1, calls, List.map_append, ← calls, htr]; simp

end Init

/-! ## Init Supervisor: statements -/

/-- C6. If a set-up step of `main` of `src/start.c` fails (`sigaction` or
`setsid` negative, the open of `/dev/tty1` not 0, the first `dup(0)` not 1,
the second not 2), then for every argument vector the calls of the process
are exactly: the set-up calls up to and including the failing one (no later
set-up step), then one run of `fail` (the console open alone when it
fails; otherwise the open, exactly one write of the diagnostic, possibly
the extra newline, and the close), then 60 s sleeps for ever. No `fork` is
ever issued and the process never leaves `go_to_sleep`. -/
theorem init_setup_failure (strerror : Int → String) (argv : List String)
    (env : Call → Nat → Resp) (e0 : Int) (k : Nat) (msg : String)
    (hfail : Init.setupFailure env = some (k, msg)) :
    ∃ t0 diag, Init.IsDiagnostic strerror msg (env Init.openConsole 0) diag
      ∧ ∀ n,
        (run (Init.machine strerror argv) (keyed env) (t0 + n) (start Init.entry e0)).pc
            = InitPC.asleep
        ∧ calls (run (Init.machine strerror argv) (keyed env) (t0 + n)
              (start Init.entry e0)).trace
            = Init.setupCalls.take k ++ diag ++ List.replicate n Init.idleSleep
        ∧ Call.fork ∉ calls (run (Init.machine strerror argv) (keyed env) (t0 + n)
              (start Init.entry e0)).trace := by
  obtain ⟨hpc, htr⟩ := Init.setup_fails strerror argv env e0 k msg hfail
  obtain ⟨m, diag, hdiag, hrun⟩ := Init.fail_then_idle strerror argv env _ msg hpc
  have hnot : ∀ c : Call, c ∉ Init.setupCalls → c ∉ Init.setupCalls.take k :=
    fun c hc hmem => hc (List.mem_of_mem_take hmem)
  have hocc : occ Init.openConsole
      (run (Init.machine strerror argv) (keyed env) k (start Init.entry e0)).trace = 0 := by
    rw [occ, htr]
    exact List.count_eq_zero_of_not_mem (hnot _ (by decide))
  rw [hocc] at hdiag
  refine ⟨k + m, diag, hdiag, fun n => ?_⟩
  have h := hrun n
  rw [← run_add, ← Nat.add_assoc, htr] at h
  refine ⟨h.1, h.2, ?_⟩
  rw [h.2]
  simp only [List.mem_append, not_or]
  refine ⟨⟨hnot _ (by decide), Init.fork_not_in_diagnostic strerror msg _ diag hdiag⟩, ?_⟩
  intro hmem
  have := List.eq_of_mem_replicate hmem
  simp [Init.idleSleep] at this

theorem init_setup_failure_witness :
    Init.setupFailure (scripted [Init.openTtyCall] []) = some (6, Init.openTtyMsg)
    ∧ ∃ t0 diag,
        Init.IsDiagnostic (fun _ => "No such file or directory") Init.openTtyMsg
          (scripted [Init.openTtyCall] [] Init.openConsole 0) diag
        ∧ ∀ n,
          (run (Init.machine (fun _ => "No such file or directory") ["/bin/start"])
              (keyed (scripted [Init.openTtyCall] [])) (t0 + n) (start Init.entry 0)).pc
            = InitPC.asleep :=
  ⟨by decide,
    (init_setup_failure (fun _ => "No such file or directory") ["/bin/start"]
        (scripted [Init.openTtyCall] []) 0 6 Init.openTtyMsg (by decide)).imp
      fun _ ht => ht.imp fun _ hd => ⟨hd.1, fun n => (hd.2 n).1⟩⟩

/-- C4. When the set-up succeeds, for every argument vector: after the
eight set-up calls the process issues `fork`, for the first time. In the
process where `fork` returns a nonzero value the calls are the set-up, the
one `fork`, then 60 s sleeps for ever. In the process where it returns 0
(the child) the next call is the `execve` selected by the argument vector
and no `fork` or `execve` follows it, ever: `/bin/busybox` with arguments
`{"/bin/busybox", "ash"}` when there is exactly one argument and it is
`"ishell"`, the path `/etc/initscript` otherwise. -/
theorem init_mode_selection (strerror : Int → String) (argv : List String)
    (env : Call → Nat → Resp) (e0 : Int) (hsetup : Init.setupFailure env = none) :
    (calls (run (Init.machine strerror argv) (keyed env) 8 (start Init.entry e0)).trace
        = Init.setupCalls
      ∧ (Init.machine strerror argv).pending
          (run (Init.machine strerror argv) (keyed env) 8 (start Init.entry e0)).pc
          (run (Init.machine strerror argv) (keyed env) 8 (start Init.entry e0)).errno
        = some Call.fork)
    ∧ ((env Call.fork 0).ret ≠ 0 → ∀ n,
        (run (Init.machine strerror argv) (keyed env) (9 + n) (start Init.entry e0)).pc
            = InitPC.asleep
        ∧ calls (run (Init.machine strerror argv) (keyed env) (9 + n)
              (start Init.entry e0)).trace
            = Init.setupCalls ++ [Call.fork] ++ List.replicate n Init.idleSleep)
    ∧ ((env Call.fork 0).ret = 0 →
        calls (run (Init.machine strerror argv) (keyed env) 10 (start Init.entry e0)).trace
            = Init.setupCalls ++ [Call.fork, Init.spawnCall argv]
        ∧ ∀ n,
          Init.spawnView (run (Init.machine strerror argv) (keyed env) (10 + n)
              (start Init.entry e0)).trace
            = [Call.fork, Init.spawnCall argv])
    ∧ ((argv.length = 2 ∧ argv.get? 1 = some "ishell") →
        Init.spawnCall argv = Call.execve "/bin/busybox" ["/bin/busybox", "ash"] [])
    ∧ (¬ (argv.length = 2 ∧ argv.get? 1 = some "ishell") →
        Init.spawnCall argv
          = Call.execve "/etc/initscript" ["/bin/busybox", "ash", "/etc/initscript"] []) := by
  refine ⟨?_, ?_, ?_, ?_, ?_⟩
  · obtain ⟨hpc, htr⟩ := Init.setup_succeeds strerror argv env e0 hsetup
    refine ⟨htr, ?_⟩
    rw [hpc]
    split_ifs <;> rfl
  · intro hret n
    obtain ⟨hpc, htr⟩ := Init.fork_step strerror argv env e0 hsetup
    rw [if_neg hret] at hpc
    have h := Init.idle_forever strerror argv env _ hpc n
    rw [← run_add, htr] at h
    exact h
  · intro hret
    obtain ⟨hpc, htr⟩ := Init.child_exec_step strerror argv env e0 hsetup hret
    refine ⟨htr, fun n => ?_⟩
    have hpast : Init.pastSpawn
        (run (Init.machine strerror argv) (keyed env) 10 (start Init.entry e0)).pc = true := by
      rw [hpc]; split_ifs <;> rfl
    have h := (Init.pastSpawn_keeps strerror argv (keyed env) _ hpast n).2
    rw [← run_add] at h
    rw [h, Init.spawnView, htr]
    unfold Init.spawnCall
    split_ifs <;>
      simp [Init.setupCalls, Init.sigactionCall, Init.openTtyCall, Init.execIshellCall,
        Init.execInitscriptCall]
  · rintro ⟨h1, h2⟩
    have hw : Init.wantsIshell argv = true := by
      unfold Init.wantsIshell
      rw [h1, h2]
      rfl
    simp [Init.spawnCall, hw, Init.execIshellCall, Init.ishell_args, Init.empty_env]
  · intro h
    have hw : Init.wantsIshell argv = false := by
      cases hw : Init.wantsIshell argv
      · rfl
      · exfalso; apply h
        simpa [Init.wantsIshell] using hw
    simp [Init.spawnCall, hw, Init.execInitscriptCall, Init.initscript_args, Init.INITSCRIPT,
      Init.empty_env]

theorem init_mode_selection_witness :
    Init.setupFailure (initAnswers 0 [] []) = none
    ∧ (initAnswers 0 [] [] Call.fork 0).ret = 0
    ∧ calls (run (Init.machine (fun _ => "") ["/bin/start", "ishell"])
          (keyed (initAnswers 0 [] [])) 10 (start Init.entry 0)).trace
        = Init.setupCalls
            ++ [Call.fork, Call.execve "/bin/busybox" ["/bin/busybox", "ash"] []] :=
  ⟨by decide, by decide,
    ((init_mode_selection (fun _ => "") ["/bin/start", "ishell"] (initAnswers 0 [] []) 0
      (by decide)).2.2.1 (by decide)).1⟩

/-- C5: the code at the failing input. Run without arguments, in the child
(`fork` returns 0) the call that replaces the image is
`execve("/etc/initscript", {"/bin/busybox", "ash", "/etc/initscript"}, {})`:
the program image passed to `execve` is the init script, not the
interpreter `/bin/busybox`, while its argument vector is the interpreter
invocation; the interactive-shell branch passes `/bin/busybox`. -/
theorem initscript_exec_image :
    Init.wantsIshell ["/bin/start"] = false
    ∧ calls (run (Init.machine (fun _ => "") ["/bin/start"])
          (keyed (initAnswers 0 [] [])) 10 (start Init.entry 0)).trace
        = Init.setupCalls
            ++ [Call.fork,
                Call.execve "/etc/initscript" ["/bin/busybox", "ash", "/etc/initscript"] []]
    ∧ calls (run (Init.machine (fun _ => "") ["/bin/start", "ishell"])
          (keyed (initAnswers 0 [] [])) 10 (start Init.entry 0)).trace
        = Init.setupCalls
            ++ [Call.fork, Call.execve "/bin/busybox" ["/bin/busybox", "ash"] []] := by
  refine ⟨by decide, ?_, ?_⟩
  · rw [(Init.child_exec_step (fun _ => "") ["/bin/start"] (initAnswers 0 [] []) 0
      (by decide) (by decide)).2]
    decide
  · rw [(Init.child_exec_step (fun _ => "") ["/bin/start", "ishell"] (initAnswers 0 [] []) 0
      (by decide) (by decide)).2]
    decide

/-- C7: the code at the failing input. Run without arguments with a
successful set-up and a failing `fork` (it returns -1): the calls of the
process are the set-up, the `fork`, then 60 s sleeps for ever. The console
is never opened: no diagnostic is written. For comparison, when `fork`
returns 0 and the `execve` of the child fails, the child does write the
diagnostic before it sleeps. -/
theorem fork_failure_silent :
    Init.setupFailure (initAnswers (-1) [] []) = none
    ∧ (initAnswers (-1) [] [] Call.fork 0).ret = -1
    ∧ (∀ n,
      (run (Init.machine (fun _ => "") ["/bin/start"]) (keyed (initAnswers (-1) [] []))
          (9 + n) (start Init.entry 0)).pc = InitPC.asleep
      ∧ calls (run (Init.machine (fun _ => "") ["/bin/start"])
            (keyed (initAnswers (-1) [] [])) (9 + n) (start Init.entry 0)).trace
          = Init.setupCalls ++ [Call.fork] ++ List.replicate n Init.idleSleep
      ∧ Init.openConsole
          ∉ calls (run (Init.machine (fun _ => "") ["/bin/start"])
              (keyed (initAnswers (-1) [] [])) (9 + n) (start Init.entry 0)).trace)
    ∧ calls (run (Init.machine (fun _ => "Input/output error") ["/bin/start"])
          (keyed (initAnswers 0 [Init.execInitscriptCall] [])) 15 (start Init.entry 0)).trace
        = Init.setupCalls
            ++ [Call.fork, Init.execInitscriptCall, Init.openConsole,
                Call.write 0
                  "Failed to run initialization script /etc/initscript\nerrno = 5 (Input/output error)\n",
                Call.write 0 "\n",
                Call.close 0,
                Init.idleSleep] := by
  refine ⟨by decide, by decide, fun n => ?_, by decide⟩
  obtain ⟨hpc, htr⟩ := Init.fork_step (fun _ => "") ["/bin/start"] (initAnswers (-1) [] []) 0
    (by decide)
  rw [if_neg (by decide)] at hpc
  have h := Init.idle_forever (fun _ => "") ["/bin/start"] (initAnswers (-1) [] []) _ hpc n
  rw [← run_add, htr] at h
  refine ⟨h.1, h.2, ?_⟩
  rw [h.2]
  simp only [List.mem_append, not_or]
  refine ⟨⟨by decide, by decide⟩, ?_⟩
  intro hmem
  have := List.eq_of_mem_replicate hmem
  simp [Init.idleSleep, Init.openConsole] at this

/-! ## The diagnostic format -/

/-- When the formatted text fits the buffer, terminating NUL included, the
bytes passed to `write` are the text. -/
theorem writtenFromBuffer_of_fits (size : Nat) (text : String) (h : text.length < size) :
    writtenFromBuffer size text = text := by
  have hlen : text.data.length < size := h
  have h1 : ¬ text.length > size := by
    have : text.length < size := h
    omega
  have h2 : List.take (size - 1) text.data = text.data :=
    List.take_of_length_le (by omega)
  have h3 : List.take text.length (text.data ++ [Char.ofNat 0]) = text.data := by
    show List.take text.data.length (text.data ++ [Char.ofNat 0]) = text.data
    rw [List.take_append_of_le_length (le_refl _), List.take_of_length_le (le_refl _)]
  simp only [writtenFromBuffer, h1, if_false, h2, h3]

/-- The routine `fail` of `src/start.c` writes the format of the
specification when the text fits its 256-byte buffer. -/
theorem Init.fail_format (strerror : Int → String) (msg : String) (n : Int)
    (h : (Init.failText strerror msg n).length < 256) :
    writtenFromBuffer 256 (Init.failText strerror msg n)
      = msg ++ "\n" ++ "errno = " ++ fmtInt n ++ " (" ++ strerror n ++ ")\n" := by
  rw [writtenFromBuffer_of_fits 256 _ h]
  unfold Init.failText
  have : "\nerrno = " = "\n" ++ "errno = " := by decide
  rw [this, ← String.append_assoc msg]

/-- The routine `print_with_errno` of `src/usbboot.c` writes a blank before
`errno` when the text fits its 256-byte buffer. -/
theorem Bootstrap.diag_format (strerror : Int → String) (msg : String) (n : Int)
    (h : (Bootstrap.diagText strerror msg n).length < 256) :
    writtenFromBuffer 256 (Bootstrap.diagText strerror msg n)
      = msg ++ "\n" ++ " errno = " ++ fmtInt n ++ " (" ++ strerror n ++ ")\n" := by
  rw [writtenFromBuffer_of_fits 256 _ h]
  unfold Bootstrap.diagText
  have : "\n errno = " = "\n" ++ " errno = " := by decide
  rw [this, ← String.append_assoc msg]

/-- C9: the code at the failing input. With `errno` 19 ("No such device"),
the console opening as descriptor 0 and every write succeeding,
`print_with_errno` of `src/usbboot.c`, called with the mount-retry message,
writes the message, `"\n"`, a blank, `"errno = 19 (No such device)\n"` and
then the extra newline: one character more than the format of the
specification. The routine `fail` of `src/start.c`, under the same answers,
writes the format of the specification exactly. -/
theorem diagnostic_format_bootstrap_blank :
    calls (run (Bootstrap.machine (fun _ => "No such device")) (keyed errno19) 4
        (start (.pweOpen Bootstrap.retryMsg (.retry 0)) 19)).trace
      = [Bootstrap.openConsole,
         Call.write 0
           "Could not mount the root filesystem - retrying in 100 milliseconds\n errno = 19 (No such device)\n",
         Call.write 0 "\n",
         Call.close 0]
    ∧ writtenFromBuffer 256 (Bootstrap.diagText (fun _ => "No such device") Bootstrap.retryMsg 19)
      ≠ Bootstrap.retryMsg ++ "\n" ++ "errno = " ++ fmtInt 19 ++ " (" ++ "No such device" ++ ")\n"
    ∧ calls (run (Init.machine (fun _ => "No such device") ["/bin/start"]) (keyed errno19) 4
        (start (.failOpen Init.openTtyMsg) 19)).trace
      = [Init.openConsole,
         Call.write 0 (Init.openTtyMsg ++ "\n" ++ "errno = " ++ fmtInt 19 ++ " ("
            ++ "No such device" ++ ")\n"),
         Call.write 0 "\n",
         Call.close 0] := by
  refine ⟨by decide, by decide, by decide⟩

/-! ## Init Supervisor: the controlling-terminal binding -/

theorem lookupFd_nil (j : Nat) : lookupFd [] j = none := by
  cases j <;> rfl

theorem lookupFd_setFd : ∀ (t : FdTable) (i j : Nat) (v : Option OpenFile),
    lookupFd (setFd t i v) j = if j = i then v else lookupFd t j
  | [], 0, 0, v => by simp [setFd, lookupFd]
  | [], 0, j + 1, v => by simp [setFd, lookupFd, lookupFd_nil]
  | [], i + 1, 0, v => by simp [setFd, lookupFd]
  | [], i + 1, j + 1, v => by simp [setFd, lookupFd, lookupFd_setFd [] i j v, lookupFd_nil]
  | x :: rest, 0, 0, v => by simp [setFd, lookupFd]
  | x :: rest, 0, j + 1, v => by simp [setFd, lookupFd]
  | x :: rest, i + 1, 0, v => by simp [setFd, lookupFd]
  | x :: rest, i + 1, j + 1, v => by simp [setFd, lookupFd, lookupFd_setFd rest i j v]

theorem lowestFree_eq_zero (t : FdTable) (h0 : lookupFd t 0 = none) : lowestFree t = 0 := by
  cases t with
  | nil => rfl
  | cons x rest =>
    have hx : x = none := h0
    subst hx; rfl

theorem lowestFree_eq_one (t : FdTable) (a : OpenFile) (h0 : lookupFd t 0 = some a)
    (h1 : lookupFd t 1 = none) : lowestFree t = 1 := by
  cases t with
  | nil => simp [lookupFd] at h0
  | cons x rest =>
    have hx : x = some a := h0
    subst hx
    have : lowestFree rest = 0 := lowestFree_eq_zero rest h1
    simp [lowestFree, this]

theorem lowestFree_eq_two (t : FdTable) (a b : OpenFile) (h0 : lookupFd t 0 = some a)
    (h1 : lookupFd t 1 = some b) (h2 : lookupFd t 2 = none) : lowestFree t = 2 := by
  cases t with
  | nil => simp [lookupFd] at h0
  | cons x rest =>
    have hx : x = some a := h0
    subst hx
    have : lowestFree rest = 1 := lowestFree_eq_one rest b h1 h2
    simp [lowestFree, this]

namespace Init

theorem binding_step (strerror : Int → String) (argv : List String)
    (env : Call → Nat → Resp) (w0 : FdWorld) (c : Config InitPC FdWorld)
    (h : bindingInv w0 c.pc c.world c.trace) :
    bindingInv w0 (step (machine strerror argv) (fdKernel env) c).pc
      (step (machine strerror argv) (fdKernel env) c).world
      (step (machine strerror argv) (fdKernel env) c).trace := by
  obtain ⟨pc, e, w, tr⟩ := c
  cases pc with
  | sigaction =>
    simp only [bindingInv] at h
    simp only [step, machine, pending, next, fdKernel, sigactionCall]
    split_ifs <;> simp_all [bindingInv, calls, setupCalls, sigactionCall, bindingRets]
  | setsid =>
    simp only [bindingInv] at h
    simp only [step, machine, pending, next, fdKernel]
    split_ifs <;> simp_all [bindingInv, calls, setupCalls, sigactionCall, bindingRets]
    exact h.2.1
  | close0 =>
    simp only [bindingInv] at h
    simp only [step, machine, pending, next, fdKernel]
    split_ifs <;>
      simp_all [bindingInv, calls, setupCalls, sigactionCall, lookupFd_setFd, bindingRets] <;>
      exact h.2.1
  | close1 =>
    simp only [bindingInv] at h
    simp only [step, machine, pending, next, fdKernel]
    split_ifs <;>
      simp_all [bindingInv, calls, setupCalls, sigactionCall, lookupFd_setFd, bindingRets] <;>
      exact h.2.1
  | close2 =>
    simp only [bindingInv] at h
    simp only [step, machine, pending, next, fdKernel]
    split_ifs <;>
      simp_all [bindingInv, calls, setupCalls, sigactionCall, lookupFd_setFd, bindingRets] <;>
      exact h.2.1
  | openTty =>
    simp only [bindingInv] at h
    have hl := lowestFree_eq_zero w.table h.2.2.2.1
    simp only [step, machine, pending, next, fdKernel, openTtyCall, hl]
    split_ifs <;>
      simp_all [bindingInv, calls, setupCalls, sigactionCall, openTtyCall, lookupFd_setFd,
        bindingRets]
    exact h.2.1
  | dupStdout =>
    simp only [bindingInv] at h
    have hl := lowestFree_eq_one w.table _ h.2.2.1 h.2.2.2.1
    simp only [step, machine, pending, next, fdKernel, hl, le_refl, if_true, Int.toNat_zero,
      h.2.2.1]
    split_ifs <;>
      simp_all [bindingInv, calls, setupCalls, sigactionCall, openTtyCall, lookupFd_setFd,
        bindingRets]
  | dupStderr =>
    simp only [bindingInv] at h
    have hl := lowestFree_eq_two w.table _ _ h.2.2.1 h.2.2.2.1 h.2.2.2.2
    simp only [step, machine, pending, next, fdKernel, hl, le_refl, if_true, Int.toNat_zero,
      h.2.2.1]
    split_ifs <;>
      simp_all [bindingInv, calls, setupCalls, sigactionCall, openTtyCall, lookupFd_setFd,
        bindingRets]
  | forkIshell =>
    simp only [step, machine, pending, next, fdKernel]
    split_ifs <;> simp [bindingInv]
  | forkInitscript =>
    simp only [step, machine, pending, next, fdKernel]
    split_ifs <;> simp [bindingInv]
  | execIshell =>
    simp only [step, machine, pending, next, fdKernel, execIshellCall]
    split_ifs <;> simp [bindingInv]
  | execInitscript =>
    simp only [step, machine, pending, next, fdKernel, execInitscriptCall]
    split_ifs <;> simp [bindingInv]
  | failOpen msg =>
    simp only [step, machine, pending, next, fdKernel, openConsole]
    split_ifs <;> simp [bindingInv]
  | failWrite msg fd =>
    simp only [step, machine, pending, next, fdKernel]
    split_ifs <;> simp [bindingInv]
  | failNewline fd =>
    simp only [step, machine, pending, next, fdKernel]
    simp [bindingInv]
  | failClose fd =>
    simp only [step, machine, pending, next, fdKernel]
    split_ifs <;> simp [bindingInv]
  | asleep =>
    simp only [step, machine, pending, next, fdKernel, idleSleep]
    simp [bindingInv]
  | replaced =>
    simp only [step, machine, pending]
    simp [bindingInv]


end Init

/-- C8. In the descriptor-table model, where `open` and `dup` return the
lowest free descriptor, for every initial table, argument vector and
answers of the system: whenever `main` of `src/start.c` is about to call
`fork`, descriptors 0, 1 and 2 refer to one and the same open file
description, the one made by the open of `/dev/tty1` (the first open of the
run); the calls issued so
far are exactly the eight set-up calls, each once and in program order (so
no `fork` came before): the open of `/dev/tty1` returned 0, then the first
`dup(0)` returned 1, then the second returned 2. -/
theorem init_terminal_binding (strerror : Int → String) (argv : List String)
    (env : Call → Nat → Resp) (e0 : Int) (w0 : FdWorld) (t : Nat)
    (hfork : (Init.machine strerror argv).pending
        (run (Init.machine strerror argv) (fdKernel env) t
          { pc := Init.entry, errno := e0, world := w0, trace := [] }).pc
        (run (Init.machine strerror argv) (fdKernel env) t
          { pc := Init.entry, errno := e0, world := w0, trace := [] }).errno
      = some Call.fork) :
    (∃ tty : OpenFile, tty.path = "/dev/tty1" ∧ tty.serial = w0.opened
      ∧ lookupFd (run (Init.machine strerror argv) (fdKernel env) t
          { pc := Init.entry, errno := e0, world := w0, trace := [] }).world.table 0 = some tty
      ∧ lookupFd (run (Init.machine strerror argv) (fdKernel env) t
          { pc := Init.entry, errno := e0, world := w0, trace := [] }).world.table 1 = some tty
      ∧ lookupFd (run (Init.machine strerror argv) (fdKernel env) t
          { pc := Init.entry, errno := e0, world := w0, trace := [] }).world.table 2 = some tty)
    ∧ calls (run (Init.machine strerror argv) (fdKernel env) t
          { pc := Init.entry, errno := e0, world := w0, trace := [] }).trace
        = [Call.sigaction "SIGCHLD" "SIG_IGN", Call.setsid, Call.close 0, Call.close 1,
           Call.close 2, Call.openFile "/dev/tty1" ["O_RDWR", "O_NONBLOCK"], Call.dup 0,
           Call.dup 0]
    ∧ Init.bindingRets (run (Init.machine strerror argv) (fdKernel env) t
          { pc := Init.entry, errno := e0, world := w0, trace := [] }).trace
        = [(Call.openFile "/dev/tty1" ["O_RDWR", "O_NONBLOCK"], 0), (Call.dup 0, 1),
           (Call.dup 0, 2)] := by
  have inv := run_invariant (Init.machine strerror argv) (fdKernel env)
    (fun c => Init.bindingInv w0 c.pc c.world c.trace)
    (Init.binding_step strerror argv env w0) t
    { pc := Init.entry, errno := e0, world := w0, trace := [] }
    (by simp [Init.bindingInv, Init.entry, calls, Init.bindingRets])
  revert hfork inv
  generalize run (Init.machine strerror argv) (fdKernel env) t
    { pc := Init.entry, errno := e0, world := w0, trace := [] } = c
  intro hfork inv
  have inv : Init.bindingInv w0 c.pc c.world c.trace := inv
  cases hpc : c.pc <;> rw [hpc] at hfork inv <;>
    simp [Init.machine, Init.pending, Init.sigactionCall, Init.openTtyCall, Init.openConsole,
      Init.execIshellCall, Init.execInitscriptCall, Init.idleSleep] at hfork
  all_goals
    simp only [Init.bindingInv] at inv
    obtain ⟨h1, h2, h3, h4, h5⟩ := inv
    exact ⟨⟨_, rfl, rfl, h3, h4, h5⟩, h1, h2⟩

theorem init_terminal_binding_witness :
    (Init.machine (fun _ => "") ["/bin/start"]).pending
        (run (Init.machine (fun _ => "") ["/bin/start"]) (fdKernel (scripted [] [])) 8
          { pc := Init.entry, errno := 0,
            world := { table := [some { path := "/dev/console", serial := 0 }], opened := 1 },
            trace := [] }).pc
        (run (Init.machine (fun _ => "") ["/bin/start"]) (fdKernel (scripted [] [])) 8
          { pc := Init.entry, errno := 0,
            world := { table := [some { path := "/dev/console", serial := 0 }], opened := 1 },
            trace := [] }).errno
      = some Call.fork
    ∧ Init.bindingRets (run (Init.machine (fun _ => "") ["/bin/start"])
          (fdKernel (scripted [] [])) 8
          { pc := Init.entry, errno := 0,
            world := { table := [some { path := "/dev/console", serial := 0 }], opened := 1 },
            trace := [] }).trace
        = [(Call.openFile "/dev/tty1" ["O_RDWR", "O_NONBLOCK"], 0), (Call.dup 0, 1),
           (Call.dup 0, 2)] :=
  ⟨by decide,
    (init_terminal_binding (fun _ => "") ["/bin/start"] (scripted [] []) 0
      { table := [some { path := "/dev/console", serial := 0 }], opened := 1 } 8
      (by decide)).2.2⟩

end Quickboot
